import Mathlib

/-!
Verification development for the SECL expression compiler (package `eval` of
the repository). The compiler source embedded here is the file holding
`extractField`, `identToEvaluator`, the operator-override wrappers and
`nodeToEvaluator`. Evaluator leaf types, operator combinators, the AST shapes
and the external Model/Context contracts are not part of the provided source;
they are modelled from the specification and marked as such in their doc
comments. All functions are executable and total.
-/

namespace Secl

/-- Offset of an AST node in the rule source; models lexer.Position by a single number. -/
abbrev Position := Nat

/-- A field name of the event model. -/
abbrev Field := String

/-- A register identifier. -/
abbrev RegisterID := String

/-- Modelled from the spec: the per-event Context object. It carries the clock
reference used by the duration combinators and inputs for the accessor
closures supplied by the host Model. -/
structure Context where
  now : Int := 0
  intAt : String → Int := fun _ => 0
  stringAt : String → String := fun _ => ""
  boolAt : String → Bool := fun _ => Bool.false

/-- Value type tag carried by string and CIDR evaluators. -/
inductive ValueType where
  | scalar
  | pattern
  | regexp
  | variableT
  | ipnet
deriving DecidableEq

/-- Modelled from the spec: an IP network, an address with a mask length. -/
structure IPNet where
  addr : Nat := 0
  maskLen : Nat := 32
deriving DecidableEq

structure BoolEvaluator where
  value : Bool := Bool.false
  evalFnc : Option (Context → Bool) := none
  field : Field := ""

structure IntEvaluator where
  value : Int := 0
  evalFnc : Option (Context → Int) := none
  field : Field := ""
  isDuration : Bool := Bool.false

structure StringEvaluatorBase where
  value : String := ""
  evalFnc : Option (Context → String) := none
  valueType : ValueType := ValueType.scalar
  field : Field := ""

structure StringArrayEvaluatorBase where
  values : List String := []
  evalFnc : Option (Context → List String) := none
  field : Field := ""

/-- Constant string member set; each member keeps its value type (scalar or pattern). -/
structure StringValuesEvaluator where
  values : List (String × ValueType) := []

structure BoolArrayEvaluator where
  values : List Bool := []
  evalFnc : Option (Context → List Bool) := none
  field : Field := ""

structure IntArrayEvaluator where
  values : List Int := []
  evalFnc : Option (Context → List Int) := none
  field : Field := ""

structure CIDREvaluator where
  value : IPNet := {}
  evalFnc : Option (Context → IPNet) := none
  valueType : ValueType := ValueType.ipnet
  field : Field := ""

structure CIDRValues where
  nets : List IPNet := []

structure CIDRValuesEvaluator where
  value : CIDRValues := {}
  valueType : ValueType := ValueType.ipnet

structure CIDRArrayEvaluator where
  value : List IPNet := []
  evalFnc : Option (Context → List IPNet) := none
  field : Field := ""

/-- Operator override table attached to string evaluators. In the source the
override hooks receive the full evaluators; to satisfy strict positivity the
embedded hooks receive the evaluators stripped of their own override tables,
which no claim depends on. -/
structure OpOverrides where
  stringEquals : Option (StringEvaluatorBase → StringEvaluatorBase → BoolEvaluator) := none
  stringArrayContains : Option (StringEvaluatorBase → StringArrayEvaluatorBase → BoolEvaluator) := none
  stringValuesContains : Option (StringEvaluatorBase → StringValuesEvaluator → BoolEvaluator) := none
  stringArrayMatches : Option (StringArrayEvaluatorBase → StringValuesEvaluator → BoolEvaluator) := none

structure StringEvaluator extends StringEvaluatorBase where
  opOverrides : Option OpOverrides := none

structure StringArrayEvaluator extends StringArrayEvaluatorBase where
  opOverrides : Option OpOverrides := none

/-- The evaluator sum type: every AST node compiles to one of these. -/
inductive Evaluator where
  | boolEv (e : BoolEvaluator)
  | intEv (e : IntEvaluator)
  | stringEv (e : StringEvaluator)
  | cidrEv (e : CIDREvaluator)
  | boolArrayEv (e : BoolArrayEvaluator)
  | intArrayEv (e : IntArrayEvaluator)
  | stringArrayEv (e : StringArrayEvaluator)
  | cidrArrayEv (e : CIDRArrayEvaluator)
  | stringValuesEv (e : StringValuesEvaluator)
  | cidrValuesEv (e : CIDRValuesEvaluator)

def BoolEvaluator.eval (e : BoolEvaluator) (ctx : Context) : Bool :=
  match e.evalFnc with
  | some f => f ctx
  | none => e.value

def IntEvaluator.eval (e : IntEvaluator) (ctx : Context) : Int :=
  match e.evalFnc with
  | some f => f ctx
  | none => e.value

def StringEvaluator.eval (e : StringEvaluator) (ctx : Context) : String :=
  match e.evalFnc with
  | some f => f ctx
  | none => e.value

def StringArrayEvaluator.eval (e : StringArrayEvaluator) (ctx : Context) : List String :=
  match e.evalFnc with
  | some f => f ctx
  | none => e.values

def BoolArrayEvaluator.eval (e : BoolArrayEvaluator) (ctx : Context) : List Bool :=
  match e.evalFnc with
  | some f => f ctx
  | none => e.values

def IntArrayEvaluator.eval (e : IntArrayEvaluator) (ctx : Context) : List Int :=
  match e.evalFnc with
  | some f => f ctx
  | none => e.values

def CIDREvaluator.eval (e : CIDREvaluator) (ctx : Context) : IPNet :=
  match e.evalFnc with
  | some f => f ctx
  | none => e.value

def CIDRArrayEvaluator.eval (e : CIDRArrayEvaluator) (ctx : Context) : List IPNet :=
  match e.evalFnc with
  | some f => f ctx
  | none => e.value

/-- Shell-style glob matching used for Pattern values; the first argument is
the pattern, the second the subject. Modelled from the spec. -/
def globMatchL : List Char → List Char → Bool
  | [], [] => Bool.true
  | '*' :: ps, [] => globMatchL ps []
  | '*' :: ps, c :: ss => globMatchL ps (c :: ss) || globMatchL ('*' :: ps) ss
  | _ :: _, [] => Bool.false
  | [], _ :: _ => Bool.false
  | p :: ps, c :: ss => p == c && globMatchL ps ss
termination_by p s => (p.length, s.length)

def globMatch (pat subj : String) : Bool :=
  globMatchL pat.toList subj.toList

/-- Modelled from the spec: Regexp values use an external regex engine, which
no claim exercises; modelled as literal comparison. -/
def regexpMatchModel (pat subj : String) : Bool :=
  pat == subj

/-- Compare a subject string against a value of the given value type:
Scalar is literal equality, Pattern is glob matching. Modelled from the spec. -/
def stringCmp (vt : ValueType) (pat subj : String) : Bool :=
  match vt with
  | ValueType.pattern => globMatch pat subj
  | ValueType.regexp => regexpMatchModel pat subj
  | _ => pat == subj

/-- Modelled from the spec: network containment, the first network contains the second. -/
def IPNet.containsNet (a b : IPNet) : Bool :=
  a.maskLen ≤ b.maskLen && (a.addr >>> (32 - a.maskLen)) == (b.addr >>> (32 - a.maskLen))

/-! Operator combinators. Each combinator lives outside the provided source
file; every one of them is modelled from the spec as a total function
producing a `BoolEvaluator` (or integer evaluator) closure. -/

def Or (a b : BoolEvaluator) : BoolEvaluator :=
  { evalFnc := some fun ctx => a.eval ctx || b.eval ctx }

def And (a b : BoolEvaluator) : BoolEvaluator :=
  { evalFnc := some fun ctx => a.eval ctx && b.eval ctx }

/-- Boolean negation combinator; a constant stays a constant, a closure is wrapped. -/
def Not (e : BoolEvaluator) : BoolEvaluator :=
  match e.evalFnc with
  | some f => { evalFnc := some fun ctx => !(f ctx) }
  | none => { value := !e.value }

def BoolEquals (a b : BoolEvaluator) : BoolEvaluator :=
  { evalFnc := some fun ctx => a.eval ctx == b.eval ctx }

def BoolArrayEquals (a : BoolEvaluator) (b : BoolArrayEvaluator) : BoolEvaluator :=
  { evalFnc := some fun ctx => (b.eval ctx).any fun v => v == a.eval ctx }

def ArrayBoolContains (a : BoolEvaluator) (b : BoolArrayEvaluator) : BoolEvaluator :=
  { evalFnc := some fun ctx => (b.eval ctx).any fun v => v == a.eval ctx }

def IntAnd (a b : IntEvaluator) : IntEvaluator :=
  { evalFnc := some fun ctx => Int.land (a.eval ctx) (b.eval ctx) }

def IntOr (a b : IntEvaluator) : IntEvaluator :=
  { evalFnc := some fun ctx => Int.lor (a.eval ctx) (b.eval ctx) }

def IntXor (a b : IntEvaluator) : IntEvaluator :=
  { evalFnc := some fun ctx => Int.xor (a.eval ctx) (b.eval ctx) }

def IntNot (a : IntEvaluator) : IntEvaluator :=
  { evalFnc := some fun ctx => -(a.eval ctx) - 1 }

def Minus (a : IntEvaluator) : IntEvaluator :=
  { evalFnc := some fun ctx => -(a.eval ctx) }

def IntEquals (a b : IntEvaluator) : BoolEvaluator :=
  { evalFnc := some fun ctx => a.eval ctx == b.eval ctx }

def LesserThan (a b : IntEvaluator) : BoolEvaluator :=
  { evalFnc := some fun ctx => decide (a.eval ctx < b.eval ctx) }

def LesserOrEqualThan (a b : IntEvaluator) : BoolEvaluator :=
  { evalFnc := some fun ctx => decide (a.eval ctx ≤ b.eval ctx) }

def GreaterThan (a b : IntEvaluator) : BoolEvaluator :=
  { evalFnc := some fun ctx => decide (b.eval ctx < a.eval ctx) }

def GreaterOrEqualThan (a b : IntEvaluator) : BoolEvaluator :=
  { evalFnc := some fun ctx => decide (b.eval ctx ≤ a.eval ctx) }

/-- Modelled from the spec: the duration comparison interprets the right-hand
value as a window width relative to the clock carried by the Context. -/
def DurationLesserThan (a b : IntEvaluator) : BoolEvaluator :=
  { evalFnc := some fun ctx => decide (ctx.now - a.eval ctx < b.eval ctx) }

def DurationLesserOrEqualThan (a b : IntEvaluator) : BoolEvaluator :=
  { evalFnc := some fun ctx => decide (ctx.now - a.eval ctx ≤ b.eval ctx) }

def DurationGreaterThan (a b : IntEvaluator) : BoolEvaluator :=
  { evalFnc := some fun ctx => decide (b.eval ctx < ctx.now - a.eval ctx) }

def DurationGreaterOrEqualThan (a b : IntEvaluator) : BoolEvaluator :=
  { evalFnc := some fun ctx => decide (b.eval ctx ≤ ctx.now - a.eval ctx) }

def IntArrayEquals (a : IntEvaluator) (b : IntArrayEvaluator) : BoolEvaluator :=
  { evalFnc := some fun ctx => (b.eval ctx).any fun v => v == a.eval ctx }

def IntArrayMatches (a b : IntArrayEvaluator) : BoolEvaluator :=
  { evalFnc := some fun ctx => (a.eval ctx).any fun v => (b.eval ctx).any fun w => v == w }

def IntArrayLesserThan (a : IntEvaluator) (b : IntArrayEvaluator) : BoolEvaluator :=
  { evalFnc := some fun ctx => (b.eval ctx).any fun v => decide (a.eval ctx < v) }

def IntArrayLesserOrEqualThan (a : IntEvaluator) (b : IntArrayEvaluator) : BoolEvaluator :=
  { evalFnc := some fun ctx => (b.eval ctx).any fun v => decide (a.eval ctx ≤ v) }

def IntArrayGreaterThan (a : IntEvaluator) (b : IntArrayEvaluator) : BoolEvaluator :=
  { evalFnc := some fun ctx => (b.eval ctx).any fun v => decide (v < a.eval ctx) }

def IntArrayGreaterOrEqualThan (a : IntEvaluator) (b : IntArrayEvaluator) : BoolEvaluator :=
  { evalFnc := some fun ctx => (b.eval ctx).any fun v => decide (v ≤ a.eval ctx) }

/-- Default string comparison: the right-hand side supplies the value type
used for matching. Modelled from the spec. -/
def StringEquals (a b : StringEvaluator) : BoolEvaluator :=
  { evalFnc := some fun ctx => stringCmp b.valueType (b.eval ctx) (a.eval ctx) }

def StringArrayContains (a : StringEvaluator) (b : StringArrayEvaluator) : BoolEvaluator :=
  { evalFnc := some fun ctx => (b.eval ctx).any fun el => stringCmp a.valueType (a.eval ctx) el }

def StringValuesContains (a : StringEvaluator) (b : StringValuesEvaluator) : BoolEvaluator :=
  { evalFnc := some fun ctx => b.values.any fun m => stringCmp m.2 m.1 (a.eval ctx) }

def StringArrayMatches (a : StringArrayEvaluator) (b : StringValuesEvaluator) : BoolEvaluator :=
  { evalFnc := some fun ctx => (a.eval ctx).any fun el => b.values.any fun m => stringCmp m.2 m.1 el }

def CIDREquals (a b : CIDREvaluator) : BoolEvaluator :=
  { evalFnc := some fun ctx => a.eval ctx == b.eval ctx }

def CIDRValuesContains (a : CIDREvaluator) (b : CIDRValuesEvaluator) : BoolEvaluator :=
  { evalFnc := some fun ctx => b.value.nets.any fun n => n.containsNet (a.eval ctx) }

def CIDRArrayContains (a : CIDREvaluator) (b : CIDRArrayEvaluator) : BoolEvaluator :=
  { evalFnc := some fun ctx => (b.eval ctx).any fun n => n.containsNet (a.eval ctx) }

def CIDRArrayMatches (a : CIDRArrayEvaluator) (b : CIDRValuesEvaluator) : BoolEvaluator :=
  { evalFnc := some fun ctx => (a.eval ctx).any fun el => b.value.nets.any fun n => n.containsNet el }

def CIDRArrayMatchesAll (a : CIDRArrayEvaluator) (b : CIDRValuesEvaluator) : BoolEvaluator :=
  { evalFnc := some fun ctx => (a.eval ctx).all fun el => b.value.nets.any fun n => n.containsNet el }

theorem eval_Not (e : BoolEvaluator) (ctx : Context) :
    (Not e).eval ctx = !(e.eval ctx) := by
  cases h : e.evalFnc <;> simp [Not, BoolEvaluator.eval, h]

/-! Operator-override wrappers. These four functions are part of the provided
source; the nil-pointer checks on the override tables become Option binds. -/

/-- StringEqualsWrapper makes use of operator overrides. -/
def StringEqualsWrapper (a b : StringEvaluator) : BoolEvaluator :=
  match a.opOverrides.bind OpOverrides.stringEquals with
  | some f => f a.toStringEvaluatorBase b.toStringEvaluatorBase
  | none =>
    match b.opOverrides.bind OpOverrides.stringEquals with
    | some f => f a.toStringEvaluatorBase b.toStringEvaluatorBase
    | none => StringEquals a b

/-- StringArrayContainsWrapper makes use of operator overrides. -/
def StringArrayContainsWrapper (a : StringEvaluator) (b : StringArrayEvaluator) : BoolEvaluator :=
  match a.opOverrides.bind OpOverrides.stringArrayContains with
  | some f => f a.toStringEvaluatorBase b.toStringArrayEvaluatorBase
  | none =>
    match b.opOverrides.bind OpOverrides.stringArrayContains with
    | some f => f a.toStringEvaluatorBase b.toStringArrayEvaluatorBase
    | none => StringArrayContains a b

/-- StringValuesContainsWrapper makes use of operator overrides. A
StringValuesEvaluator has no override table, so only the left operand is consulted. -/
def StringValuesContainsWrapper (a : StringEvaluator) (b : StringValuesEvaluator) : BoolEvaluator :=
  match a.opOverrides.bind OpOverrides.stringValuesContains with
  | some f => f a.toStringEvaluatorBase b
  | none => StringValuesContains a b

/-- StringArrayMatchesWrapper makes use of operator overrides; only the left
operand is consulted. -/
def StringArrayMatchesWrapper (a : StringArrayEvaluator) (b : StringValuesEvaluator) : BoolEvaluator :=
  match a.opOverrides.bind OpOverrides.stringArrayMatches with
  | some f => f a.toStringArrayEvaluatorBase b
  | none => StringArrayMatches a b

/-! External contracts and compile-time state. -/

/-- Modelled from the spec: an iterator factory handed back by the Model; the
compiler only stores and compares it, so it is carried as an opaque token. -/
structure Iterator where
  name : String
deriving DecidableEq

/-- Compile errors. The constructors mirror the error constructors used by the
source (`NewTypeError`, `NewArrayTypeError`, `NewCIDRTypeError`,
`NewOpUnknownError`, `NewRegisterNameNotAllowed`, `NewRegisterMultipleFields`,
`ErrNonStaticPattern`, `NewError`); errors returned verbatim from the Model
are wrapped in `modelError`. Message texts drop quote characters. -/
inductive CompileError where
  | typeError (pos : Position) (kind : String)
  | arrayTypeError (pos : Position) (kind : String)
  | cidrTypeError (pos : Position)
  | opUnknown (pos : Position) (op : String)
  | registerNameNotAllowed (pos : Position) (regID : RegisterID)
  | registerMultipleFields (pos : Position) (regID : RegisterID)
  | nonStaticPattern (field : Field)
  | message (pos : Position) (msg : String)
  | modelError (msg : String)
deriving DecidableEq

/-- Modelled from the spec: a host variable; `GetEvaluator` hands back the
evaluator of one of the supported kinds (or another kind, which the compiler
rejects where unsupported). -/
structure VariableValue where
  getEvaluator : Evaluator

/-- Modelled from the spec: the host Model contract consumed by the compiler. -/
structure Model where
  getIterator : Field → Except String Iterator
  getEvaluator : Field → RegisterID → Except String Evaluator

/-- Modelled from the spec: compilation options carrying constants, the legacy
field rename table and the variable store. -/
structure Opts where
  constants : List (String × Evaluator) := []
  legacyFields : Option (List (String × String)) := none
  varStore : List (String × VariableValue) := []

structure EvalReplacementContext where
  opts : Opts

structure RegisterInfo where
  field : Field
  iterator : Iterator
  subFields : List Field

/-- The compile-time mutable state. The regex cache of the source is a pure
memoisation detail and is dropped; the random register ids of `RandString(8)`
are modelled by a fresh counter (only freshness matters). -/
structure State where
  model : Model
  macros : List (String × Evaluator) := []
  registersInfo : List (RegisterID × RegisterInfo) := []
  fields : List Field := []
  freshCounter : Nat := 0

/-- Modelled from the spec: `RandString(8)` draws eight random lowercase
alphanumerics; collisions are astronomically unlikely, so it is modelled by a
counter-indexed name disjoint from every user-writable register id. -/
def randString (n : Nat) : RegisterID :=
  "reg" ++ toString n

/-- Modelled from the spec: `State.UpdateFields` records a referenced field in
the `fields` set. -/
def State.updateFields (st : State) (f : Field) : State :=
  if st.fields.contains f then st else { st with fields := st.fields ++ [f] }

/-- Replace the binding of a key in an association list (the key is present). -/
def assocSet {α : Type} (l : List (RegisterID × α)) (k : RegisterID) (v : α) :
    List (RegisterID × α) :=
  l.map fun p => if p.1 = k then (p.1, v) else p

/-! The field extraction machinery of `extractField`. The source matches the
identifier against two cached regular expressions; their matching semantics on
the identifier alphabet are embedded directly. -/

/-- Leftmost match of the subscript-find pattern (an opening bracket, a body
free of closing brackets, a closing bracket) with its one capture group.
Returns the empty list on no match or the two-element submatch slice
[full, group] — exactly the shapes Go FindStringSubmatch yields here. -/
def findSubscriptSubmatchL : List Char → List String
  | [] => []
  | '[' :: rest =>
      if rest.contains ']' then
        let grp := rest.takeWhile fun c => c != ']'
        ["[" ++ String.mk grp ++ "]", String.mk grp]
      else []
  | _ :: rest => findSubscriptSubmatchL rest

/-- Capture split of the subscript-replace pattern (a nonempty greedy head
group, a bracket pair with a nonempty body free of closing brackets, a tail
group). The greedy head makes the engine take the last such bracket pair, so
the scan keeps the latest candidate. Returns the ($1, $2) capture pair, none
when the pattern does not match. -/
def lastBracketSplit (pre : List Char) : List Char → Option (List Char × List Char)
  | [] => none
  | c :: rest =>
      let here : Option (List Char × List Char) :=
        if c = '[' ∧ pre ≠ [] then
          match rest.dropWhile (fun d => d != ']') with
          | ']' :: post =>
              if (rest.takeWhile fun d => d != ']').isEmpty then none
              else some (pre, post)
          | _ => none
        else none
      match lastBracketSplit (pre ++ [c]) rest with
      | some r => some r
      | none => here

/-- ReplaceAllString of the subscript-replace pattern with `$1$2` (first
component) and with `$1` (second component); an unmatched input is returned
unchanged, as ReplaceAllString does. -/
def arraySubscriptReplace (field : String) : String × String :=
  match lastBracketSplit [] field.toList with
  | some (pre, post) => (String.mk (pre ++ post), String.mk pre)
  | none => (field, field)

/-- extractField splits an identifier carrying an array subscript into the
resolved field, the iterator field and the register id. The regex cache held
by the state only memoises the two compiled patterns and is dropped here; the
length switch over the submatch slice is kept as in the source. -/
def extractField (field : String) : Except CompileError (Field × Field × RegisterID) :=
  match findSubscriptSubmatchL field.toList with
  | [] => Except.ok (field, "", "")
  | [_, regID] =>
      let (resField, itField) := arraySubscriptReplace field
      Except.ok (resField, itField, regID)
  | _ => Except.error (CompileError.message 0 ("wrong register format for fields: " ++ field))

/-- Split on a separator character, keeping empty parts, as strings.Split does. -/
def splitOnCharL (sep : Char) : List Char → List (List Char)
  | [] => [[]]
  | c :: rest =>
      if c = sep then [] :: splitOnCharL sep rest
      else
        match splitOnCharL sep rest with
        | [] => [[c]]
        | h :: t => (c :: h) :: t

def splitOnChar (sep : Char) (s : String) : List String :=
  (splitOnCharL sep s.toList).map String.mk

/-- The dotted candidates of a field, shortest first, as enumerated by the
iterator-detection walk of `identToEvaluator`. -/
def fieldPathCandidates (field : String) : List String :=
  let nodes := splitOnChar '.' field
  (List.range nodes.length).map fun i => String.intercalate "." (nodes.take (i + 1))

/-- Walk the dotted candidates left to right and keep the first iterator the
Model answers with (the loop with break in the source). -/
def walkIterator (model : Model) (field : String) : Option Iterator :=
  (fieldPathCandidates field).findSome? fun candidate => (model.getIterator candidate).toOption

/-- The `ident` helper struct of the source. -/
structure IdentNode where
  pos : Position
  ident : String

def identToEvaluator (obj : IdentNode) (replCtx : EvalReplacementContext) (state : State) :
    Except CompileError (Evaluator × Position × State) :=
  match (replCtx.opts.constants).lookup obj.ident with
  | some accessor => Except.ok (accessor, obj.pos, state)
  | none =>
  match state.macros.lookup obj.ident with
  | some macroValue => Except.ok (macroValue, obj.pos, state)
  | none => do
    let (field0, itField0, regID0) ← extractField obj.ident
    -- transform extracted field to support legacy SECL fields
    let (field, itField) :=
      match replCtx.opts.legacyFields with
      | some legacy =>
          let field1 := match legacy.lookup field0 with
            | some newField => newField
            | none => field0
          let itField1 := match legacy.lookup field1 with
            | some newField => newField
            | none => itField0
          (field1, itField1)
      | none => (field0, itField0)
    -- extract iterator; when the iterator field is empty, detect one along the path
    let iteratorOpt ←
      if itField ≠ "" then
        match state.model.getIterator itField with
        | Except.ok it => Except.ok (some it)
        | Except.error e => Except.error (CompileError.modelError e)
      else
        Except.ok (walkIterator state.model field)
    let (regID, state) ←
      match iteratorOpt with
      | some iterator =>
          if regID0 ≠ "" ∧ regID0 ≠ "_" then
            Except.error (CompileError.registerNameNotAllowed obj.pos regID0)
          else
            let regID := if regID0 = "" ∨ regID0 = "_" then randString state.freshCounter else regID0
            let state :=
              if regID0 = "" ∨ regID0 = "_" then
                { state with freshCounter := state.freshCounter + 1 }
              else state
            match state.registersInfo.lookup regID with
            | some info =>
                if info.field ≠ itField then
                  Except.error (CompileError.registerMultipleFields obj.pos regID)
                else
                  let info2 :=
                    if info.subFields.contains field then info
                    else { info with subFields := info.subFields ++ [field] }
                  Except.ok (regID, { state with registersInfo := assocSet state.registersInfo regID info2 })
            | none =>
                let info : RegisterInfo := { field := itField, iterator := iterator, subFields := [field] }
                Except.ok (regID, { state with registersInfo := (regID, info) :: state.registersInfo })
      | none => Except.ok (regID0, state)
    let accessor ←
      match state.model.getEvaluator field regID with
      | Except.ok acc => Except.ok acc
      | Except.error e => Except.error (CompileError.modelError e)
    let state := state.updateFields field
    Except.ok (accessor, obj.pos, state)

/-! Variable references and string interpolation. -/

/-- isVariableName strips the variable sigil and braces; none when the string
is not of that exact shape. -/
def isVariableName (str : String) : Option String :=
  match str.toList with
  | '$' :: '{' :: rest =>
      if rest.getLast? = some '}' then some (String.mk rest.dropLast) else none
  | _ => none

def evaluatorFromVariable (varname : String) (pos : Position) (replCtx : EvalReplacementContext) :
    Except CompileError (Evaluator × Position) :=
  match (replCtx.opts.varStore).lookup varname with
  | none => Except.error (CompileError.message pos ("variable " ++ varname ++ " does not exist"))
  | some value => Except.ok (value.getEvaluator, pos)

/-- One-pass scanner behind findVarSpans: outside a variable the mode is none;
inside one it carries the match start. A variable opens at a sigil directly
followed by an open brace and closes at the first close brace; an unclosed
variable (and everything after it) matches nothing. -/
def scanVarSpans : Nat → Option Nat → List Char → List (Nat × Nat)
  | _, _, [] => []
  | i, some start, c :: rest =>
      if c = '}' then (start, i + 1) :: scanVarSpans (i + 1) none rest
      else scanVarSpans (i + 1) (some start) rest
  | i, none, '$' :: '{' :: rest2 => scanVarSpans (i + 2) (some i) rest2
  | i, none, _ :: rest => scanVarSpans (i + 1) none rest

/-- All matches of the variable pattern (sigil, open brace, body free of close
braces, close brace) as index spans, leftmost first, non-overlapping — Go
FindAllIndex on the variable regex. Indices count characters; on the ASCII
identifiers of rules they coincide with Go byte offsets. -/
def findVarSpans (i : Nat) (l : List Char) : List (Nat × Nat) :=
  scanVarSpans i none l

/-- Character slice [a, b) of a character list. -/
def sliceL (s : List Char) (a b : Nat) : List Char :=
  (s.drop a).take (b - a)

/-- The sub-strings handed to the doLoc closure by the interpolation loop, in
source order: for each span the literal before it (when the span does not
start the string) and the span itself, then the trailing literal. -/
def interpolationPieces (s : List Char) (last : Nat) : List (Nat × Nat) → List (List Char)
  | [] => if last < s.length then [sliceL s last s.length] else []
  | (a, b) :: rest =>
      (if 0 < a then [sliceL s last a] else []) ++ (sliceL s a b :: interpolationPieces s b rest)

/-- The pieces an interpolated literal is cut into. -/
def piecesOf (s : String) : List String :=
  (interpolationPieces s.toList 0 (findVarSpans 0 s.toList)).map String.mk

/-- The doLoc closure body for one sub-string: a variable reference resolves
through the variable store into a string-rendering evaluator, anything else
becomes a literal piece. Message texts drop quote characters. -/
def pieceEvaluator (pos : Position) (replCtx : EvalReplacementContext) (sub : String) :
    Except CompileError StringEvaluator :=
  match isVariableName sub with
  | some varname =>
      match (replCtx.opts.varStore).lookup varname with
      | none => Except.error (CompileError.message pos ("variable " ++ varname ++ " does not exist"))
      | some value =>
          match value.getEvaluator with
          | Evaluator.stringArrayEv ev =>
              Except.ok { evalFnc := some fun ctx => String.intercalate "," (ev.eval ctx) }
          | Evaluator.intArrayEv ev =>
              Except.ok { evalFnc := some fun ctx => String.intercalate "," ((ev.eval ctx).map toString) }
          | Evaluator.stringEv ev => Except.ok ev
          | Evaluator.intEv ev =>
              Except.ok { evalFnc := some fun ctx => toString (ev.eval ctx) }
          | _ => Except.error (CompileError.message pos ("variable type not supported " ++ varname))
  | none => Except.ok { value := sub }

def pieceEvaluators (pos : Position) (replCtx : EvalReplacementContext) :
    List String → Except CompileError (List StringEvaluator)
  | [] => Except.ok []
  | p :: rest => do
      let e ← pieceEvaluator pos replCtx p
      let es ← pieceEvaluators pos replCtx rest
      Except.ok (e :: es)

/-- Concatenation closure over the piece evaluators (the result loop of the source). -/
def concatPieces (evaluators : List StringEvaluator) (ctx : Context) : String :=
  evaluators.foldl
    (fun result ev =>
      result ++
        match ev.evalFnc with
        | some f => f ctx
        | none => ev.value)
    ""

/-- stringEvaluatorFromVariable compiles an interpolated string literal: the
variable matches split it into pieces; each piece becomes a string evaluator
and the compiled closure concatenates their outputs in source order. -/
def stringEvaluatorFromVariable (str : String) (pos : Position) (replCtx : EvalReplacementContext) :
    Except CompileError (Evaluator × Position) := do
  let evaluators ← pieceEvaluators pos replCtx (piecesOf str)
  Except.ok (Evaluator.stringEv
    { valueType := ValueType.variableT, evalFnc := some (concatPieces evaluators) }, pos)

/-! AST shapes, modelled from the spec (the grammar front-end is external).
Each node keeps its source position. -/

inductive StringMember where
  | strM (s : String)
  | patternM (s : String)
  | regexpM (s : String)

inductive CIDRMember where
  | ipM (s : String)
  | cidrM (s : String)

/-- ast.Array: at most one member group is populated, checked in source order. -/
structure AstArray where
  pos : Position := 0
  numbers : List Int := []
  stringMembers : List StringMember := []
  identA : Option String := none
  varA : Option String := none
  cidr : Option String := none
  cidrMembers : List CIDRMember := []

def decDigitsToNatAux (acc : Nat) : List Char → Option Nat
  | [] => some acc
  | c :: rest =>
      if c.isDigit then decDigitsToNatAux (acc * 10 + (c.toNat - 48)) rest else none

/-- Parse a nonempty decimal digit string. -/
def decToNat (s : String) : Option Nat :=
  match s.toList with
  | [] => none
  | l => decDigitsToNatAux 0 l

def parseByte (s : String) : Option Nat :=
  match decToNat s with
  | some n => if n ≤ 255 then some n else none
  | none => none

def parseIPv4 (s : String) : Option Nat :=
  match splitOnChar '.' s with
  | [a, b, c, d] =>
      match parseByte a, parseByte b, parseByte c, parseByte d with
      | some a, some b, some c, some d => some (((a * 256 + b) * 256 + c) * 256 + d)
      | _, _, _, _ => none
  | _ => none

def maskAddr (addr maskLen : Nat) : Nat :=
  (addr >>> (32 - maskLen)) <<< (32 - maskLen)

/-- Modelled from the spec: ParseCIDR accepts a plain IPv4 address (a /32) or
an address with a mask length, and masks the address to its network. -/
def ParseCIDR (s : String) : Except String IPNet :=
  match splitOnChar '/' s with
  | [ip] =>
      match parseIPv4 ip with
      | some a => Except.ok { addr := a, maskLen := 32 }
      | none => Except.error ("invalid CIDR " ++ s)
  | [ip, m] =>
      match parseIPv4 ip, decToNat m with
      | some a, some len =>
          if len ≤ 32 then Except.ok { addr := maskAddr a len, maskLen := len }
          else Except.error ("invalid CIDR " ++ s)
      | _, _ => Except.error ("invalid CIDR " ++ s)
  | _ => Except.error ("invalid CIDR " ++ s)

def CIDRValues.appendCIDR (v : CIDRValues) (s : String) : Except String CIDRValues :=
  match ParseCIDR s with
  | Except.ok net => Except.ok { nets := v.nets ++ [net] }
  | Except.error e => Except.error e

def CIDRValues.appendIP (v : CIDRValues) (s : String) : Except String CIDRValues :=
  v.appendCIDR s

def stringMemberValue : StringMember → String × ValueType
  | StringMember.strM s => (s, ValueType.scalar)
  | StringMember.patternM s => (s, ValueType.pattern)
  | StringMember.regexpM s => (s, ValueType.regexp)

def appendCIDRMembers (pos : Position) (v : CIDRValues) :
    List CIDRMember → Except CompileError CIDRValues
  | [] => Except.ok v
  | CIDRMember.cidrM c :: rest =>
      match v.appendCIDR c with
      | Except.ok v2 => appendCIDRMembers pos v2 rest
      | Except.error _ => Except.error (CompileError.message pos ("invalid CIDR " ++ c))
  | CIDRMember.ipM ip :: rest =>
      match v.appendIP ip with
      | Except.ok v2 => appendCIDRMembers pos v2 rest
      | Except.error _ => Except.error (CompileError.message pos ("invalid IP " ++ ip))

def astArrayToEvaluator (arr : AstArray) (replCtx : EvalReplacementContext) (state : State) :
    Except CompileError (Evaluator × Position × State) :=
  if !arr.numbers.isEmpty then
    Except.ok (Evaluator.intArrayEv { values := arr.numbers }, arr.pos, state)
  else if !arr.stringMembers.isEmpty then
    Except.ok (Evaluator.stringValuesEv { values := arr.stringMembers.map stringMemberValue },
      arr.pos, state)
  else
    match arr.identA with
    | some name =>
        (match state.macros.lookup name with
         | some macroValue => Except.ok (macroValue, arr.pos, state)
         | none => identToEvaluator { pos := arr.pos, ident := name } replCtx state)
    | none =>
    match arr.varA with
    | some v =>
        (match isVariableName v with
         | none => Except.error (CompileError.message arr.pos ("invalid variable name " ++ v))
         | some varname =>
             match evaluatorFromVariable varname arr.pos replCtx with
             | Except.ok (ev, p) => Except.ok (ev, p, state)
             | Except.error e => Except.error e)
    | none =>
    match arr.cidr with
    | some c =>
        (match CIDRValues.appendCIDR {} c with
         | Except.ok values =>
             Except.ok (Evaluator.cidrValuesEv { value := values, valueType := ValueType.ipnet },
               arr.pos, state)
         | Except.error _ => Except.error (CompileError.message arr.pos ("invalid CIDR " ++ c)))
    | none =>
    if !arr.cidrMembers.isEmpty then
      match appendCIDRMembers arr.pos {} arr.cidrMembers with
      | Except.ok values =>
          Except.ok (Evaluator.cidrValuesEv { value := values, valueType := ValueType.ipnet },
            arr.pos, state)
      | Except.error e => Except.error e
    else
      Except.error (CompileError.message arr.pos "unknown array element type")

/-! The remaining AST node shapes. The grammar guarantees that an operator and
its right-hand node are present together, so optional (op, next) pairs become
dedicated constructors. -/

mutual
inductive Expression where
  | last (pos : Position) (comparison : Comparison)
  | chain (pos : Position) (comparison : Comparison) (op : String) (next : Expression)

inductive Comparison where
  | plain (pos : Position) (bitOperation : BitOperation)
  | withArray (pos : Position) (bitOperation : BitOperation) (arrayComparison : ArrayComparison)
  | withScalar (pos : Position) (bitOperation : BitOperation) (scalarComparison : ScalarComparison)

inductive ArrayComparison where
  | mk (pos : Position) (op : String) (array : AstArray)

inductive ScalarComparison where
  | mk (pos : Position) (op : String) (next : Comparison)

inductive BitOperation where
  | single (pos : Position) (unary : Unary)
  | chain (pos : Position) (unary : Unary) (op : String) (next : BitOperation)

inductive Unary where
  | withOp (pos : Position) (op : String) (unary : Unary)
  | primary (pos : Position) (p : Primary)

inductive Primary where
  | identP (pos : Position) (name : String)
  | number (pos : Position) (n : Int)
  | varP (pos : Position) (v : String)
  | durationP (pos : Position) (n : Int)
  | stringP (pos : Position) (s : String)
  | patternP (pos : Position) (s : String)
  | regexpP (pos : Position) (s : String)
  | ipP (pos : Position) (s : String)
  | cidrP (pos : Position) (s : String)
  | subExpression (pos : Position) (e : Expression)
end

/-- BooleanExpression wraps the root expression. -/
structure BooleanExpression where
  pos : Position := 0
  expression : Expression

/-- The array-comparison dispatch matrix of nodeToEvaluator (the branch under
`obj.ArrayComparison != nil`), factored out of the tree walk: it only reads
the two compiled operands and the operator. `objPos` is the comparison node
position, `pos` the position returned by compiling the right operand. -/
def arrayDispatch (objPos pos : Position) (op : String) (unary next : Evaluator) :
    Except CompileError (Evaluator × Position) :=
  match unary with
  | Evaluator.boolEv u =>
      match next with
      | Evaluator.boolArrayEv n =>
          let b := ArrayBoolContains u n
          if op = "notin" then Except.ok (Evaluator.boolEv (Not b), objPos)
          else Except.ok (Evaluator.boolEv b, objPos)
      | _ => Except.error (CompileError.arrayTypeError pos "bool")
  | Evaluator.stringEv u =>
      match next with
      | Evaluator.stringArrayEv n =>
          let b := StringArrayContainsWrapper u n
          if op = "notin" then Except.ok (Evaluator.boolEv (Not b), objPos)
          else Except.ok (Evaluator.boolEv b, objPos)
      | Evaluator.stringValuesEv n =>
          let b := StringValuesContainsWrapper u n
          if op = "notin" then Except.ok (Evaluator.boolEv (Not b), objPos)
          else Except.ok (Evaluator.boolEv b, objPos)
      | _ => Except.error (CompileError.arrayTypeError pos "string")
  | Evaluator.stringValuesEv u =>
      match next with
      | Evaluator.stringArrayEv n =>
          let b := StringArrayMatchesWrapper n u
          if op = "notin" then Except.ok (Evaluator.boolEv (Not b), objPos)
          else Except.ok (Evaluator.boolEv b, objPos)
      | _ => Except.error (CompileError.arrayTypeError pos "string")
  | Evaluator.stringArrayEv u =>
      match next with
      | Evaluator.stringValuesEv n =>
          let b := StringArrayMatchesWrapper u n
          if op = "notin" then Except.ok (Evaluator.boolEv (Not b), objPos)
          else Except.ok (Evaluator.boolEv b, objPos)
      | _ => Except.error (CompileError.arrayTypeError pos "string")
  | Evaluator.intEv u =>
      match next with
      | Evaluator.intArrayEv n =>
          let b := IntArrayEquals u n
          if op = "notin" then Except.ok (Evaluator.boolEv (Not b), objPos)
          else Except.ok (Evaluator.boolEv b, objPos)
      | _ => Except.error (CompileError.arrayTypeError pos "int")
  | Evaluator.intArrayEv u =>
      match next with
      | Evaluator.intArrayEv n =>
          let b := IntArrayMatches u n
          if op = "notin" then Except.ok (Evaluator.boolEv (Not b), objPos)
          else Except.ok (Evaluator.boolEv b, objPos)
      | _ => Except.error (CompileError.arrayTypeError pos "int")
  | Evaluator.cidrEv u =>
      match next with
      | Evaluator.cidrEv n =>
          let b := CIDREquals u n
          match op with
          | "in" | "allin" => Except.ok (Evaluator.boolEv b, objPos)
          | "notin" => Except.ok (Evaluator.boolEv (Not b), objPos)
          | _ => Except.error (CompileError.opUnknown objPos op)
      | Evaluator.cidrValuesEv n =>
          (match op with
           | "in" | "allin" => Except.ok (Evaluator.boolEv (CIDRValuesContains u n), objPos)
           | "notin" => Except.ok (Evaluator.boolEv (Not (CIDRValuesContains u n)), objPos)
           | _ => Except.error (CompileError.opUnknown objPos op))
      | Evaluator.cidrArrayEv n =>
          (match op with
           | "in" | "allin" => Except.ok (Evaluator.boolEv (CIDRArrayContains u n), objPos)
           | "notin" => Except.ok (Evaluator.boolEv (Not (CIDRArrayContains u n)), objPos)
           | _ => Except.error (CompileError.opUnknown objPos op))
      | _ => Except.error (CompileError.cidrTypeError pos)
  | Evaluator.cidrArrayEv u =>
      match next with
      | Evaluator.cidrValuesEv n =>
          (match op with
           | "in" => Except.ok (Evaluator.boolEv (CIDRArrayMatches u n), objPos)
           | "allin" => Except.ok (Evaluator.boolEv (CIDRArrayMatchesAll u n), objPos)
           | "notin" => Except.ok (Evaluator.boolEv (Not (CIDRArrayMatches u n)), objPos)
           | _ => Except.error (CompileError.opUnknown objPos op))
      | _ => Except.error (CompileError.cidrTypeError pos)
  | Evaluator.cidrValuesEv u =>
      match next with
      | Evaluator.cidrEv n =>
          (match op with
           | "in" | "allin" => Except.ok (Evaluator.boolEv (CIDRValuesContains n u), objPos)
           | "notin" => Except.ok (Evaluator.boolEv (Not (CIDRValuesContains n u)), objPos)
           | _ => Except.error (CompileError.opUnknown objPos op))
      | Evaluator.cidrArrayEv n =>
          (match op with
           | "allin" => Except.ok (Evaluator.boolEv (CIDRArrayMatchesAll n u), objPos)
           | "in" => Except.ok (Evaluator.boolEv (CIDRArrayMatches n u), objPos)
           | "notin" => Except.ok (Evaluator.boolEv (Not (CIDRArrayMatches n u)), objPos)
           | _ => Except.error (CompileError.opUnknown objPos op))
      | _ => Except.error (CompileError.cidrTypeError pos)
  | _ => Except.error (CompileError.typeError pos "array")

/-- The scalar-comparison dispatch matrix of nodeToEvaluator (the branch under
`obj.ScalarComparison != nil`), factored out of the tree walk. Branches that
fall out of the source type switch without returning reach the trailing
unknown-entity error of nodeToEvaluator, embedded here verbatim. -/
def scalarDispatch (objPos pos : Position) (op : String) (unary next : Evaluator) :
    Except CompileError (Evaluator × Position) :=
  match unary with
  | Evaluator.boolEv u =>
      match next with
      | Evaluator.boolEv n =>
          match op with
          | "!=" => Except.ok (Evaluator.boolEv (Not (BoolEquals u n)), objPos)
          | "==" => Except.ok (Evaluator.boolEv (BoolEquals u n), objPos)
          | _ => Except.error (CompileError.opUnknown objPos op)
      | _ => Except.error (CompileError.typeError pos "bool")
  | Evaluator.boolArrayEv u =>
      match next with
      | Evaluator.boolEv n =>
          match op with
          | "!=" => Except.ok (Evaluator.boolEv (Not (BoolArrayEquals n u)), objPos)
          | "==" => Except.ok (Evaluator.boolEv (BoolArrayEquals n u), objPos)
          | _ => Except.error (CompileError.opUnknown objPos op)
      | _ => Except.error (CompileError.typeError pos "bool")
  | Evaluator.stringEv u =>
      match next with
      | Evaluator.stringEv n =>
          match op with
          | "!=" => Except.ok (Evaluator.boolEv (Not (StringEqualsWrapper u n)), objPos)
          | "!~" =>
              if n.evalFnc.isSome then Except.error (CompileError.nonStaticPattern n.field)
              else
                let n := if n.valueType = ValueType.scalar
                  then { n with valueType := ValueType.pattern } else n
                Except.ok (Evaluator.boolEv (Not (StringEqualsWrapper u n)), objPos)
          | "==" => Except.ok (Evaluator.boolEv (StringEqualsWrapper u n), objPos)
          | "=~" =>
              if n.evalFnc.isSome then Except.error (CompileError.nonStaticPattern n.field)
              else
                let n := if n.valueType = ValueType.scalar
                  then { n with valueType := ValueType.pattern } else n
                Except.ok (Evaluator.boolEv (StringEqualsWrapper u n), objPos)
          | _ => Except.error (CompileError.opUnknown objPos op)
      | _ => Except.error (CompileError.typeError pos "string")
  | Evaluator.cidrEv u =>
      match next with
      | Evaluator.cidrEv n =>
          match op with
          | "!=" => Except.ok (Evaluator.boolEv (Not (CIDREquals u n)), objPos)
          | "==" => Except.ok (Evaluator.boolEv (CIDREquals u n), objPos)
          | _ => Except.error (CompileError.opUnknown objPos op)
      | _ => Except.error (CompileError.message 0 "unknown entity Comparison")
  | Evaluator.stringArrayEv u =>
      match next with
      | Evaluator.stringEv n =>
          match op with
          | "!=" => Except.ok (Evaluator.boolEv (Not (StringArrayContainsWrapper n u)), objPos)
          | "==" => Except.ok (Evaluator.boolEv (StringArrayContainsWrapper n u), objPos)
          | "!~" =>
              if n.evalFnc.isSome then Except.error (CompileError.nonStaticPattern n.field)
              else
                let n := if n.valueType = ValueType.scalar
                  then { n with valueType := ValueType.pattern } else n
                Except.ok (Evaluator.boolEv (Not (StringArrayContainsWrapper n u)), objPos)
          | "=~" =>
              if n.evalFnc.isSome then Except.error (CompileError.nonStaticPattern n.field)
              else
                let n := if n.valueType = ValueType.scalar
                  then { n with valueType := ValueType.pattern } else n
                Except.ok (Evaluator.boolEv (StringArrayContainsWrapper n u), objPos)
          | _ => Except.error (CompileError.message 0 "unknown entity Comparison")
      | _ => Except.error (CompileError.typeError pos "string")
  | Evaluator.intEv u =>
      match next with
      | Evaluator.intEv n =>
          (match n.isDuration, op with
           | Bool.true, "<" => Except.ok (Evaluator.boolEv (DurationLesserThan u n), objPos)
           | Bool.true, "<=" => Except.ok (Evaluator.boolEv (DurationLesserOrEqualThan u n), objPos)
           | Bool.true, ">" => Except.ok (Evaluator.boolEv (DurationGreaterThan u n), objPos)
           | Bool.true, ">=" => Except.ok (Evaluator.boolEv (DurationGreaterOrEqualThan u n), objPos)
           | Bool.true, _ => Except.error (CompileError.typeError pos "int")
           | Bool.false, "<" => Except.ok (Evaluator.boolEv (LesserThan u n), objPos)
           | Bool.false, "<=" => Except.ok (Evaluator.boolEv (LesserOrEqualThan u n), objPos)
           | Bool.false, ">" => Except.ok (Evaluator.boolEv (GreaterThan u n), objPos)
           | Bool.false, ">=" => Except.ok (Evaluator.boolEv (GreaterOrEqualThan u n), objPos)
           | Bool.false, "!=" => Except.ok (Evaluator.boolEv (Not (IntEquals u n)), objPos)
           | Bool.false, "==" => Except.ok (Evaluator.boolEv (IntEquals u n), objPos)
           | Bool.false, _ => Except.error (CompileError.opUnknown objPos op))
      | Evaluator.intArrayEv n =>
          match op with
          | "<" => Except.ok (Evaluator.boolEv (IntArrayLesserThan u n), objPos)
          | "<=" => Except.ok (Evaluator.boolEv (IntArrayLesserOrEqualThan u n), objPos)
          | ">" => Except.ok (Evaluator.boolEv (IntArrayGreaterThan u n), objPos)
          | ">=" => Except.ok (Evaluator.boolEv (IntArrayGreaterOrEqualThan u n), objPos)
          | "!=" => Except.ok (Evaluator.boolEv (Not (IntArrayEquals u n)), objPos)
          | "==" => Except.ok (Evaluator.boolEv (IntArrayEquals u n), objPos)
          | _ => Except.error (CompileError.opUnknown objPos op)
      | _ => Except.error (CompileError.typeError pos "int")
  | Evaluator.intArrayEv u =>
      match next with
      | Evaluator.intEv n =>
          match op with
          | "<" => Except.ok (Evaluator.boolEv (IntArrayGreaterThan n u), objPos)
          | "<=" => Except.ok (Evaluator.boolEv (IntArrayGreaterOrEqualThan n u), objPos)
          | ">" => Except.ok (Evaluator.boolEv (IntArrayLesserThan n u), objPos)
          | ">=" => Except.ok (Evaluator.boolEv (IntArrayLesserOrEqualThan n u), objPos)
          | "!=" => Except.ok (Evaluator.boolEv (Not (IntArrayEquals n u)), objPos)
          | "==" => Except.ok (Evaluator.boolEv (IntArrayEquals n u), objPos)
          | _ => Except.error (CompileError.opUnknown objPos op)
      | _ => Except.error (CompileError.typeError pos "int")
  | _ => Except.error (CompileError.message 0 "unknown entity Comparison")

/-- nodeToEvaluator case for ast.ArrayComparison: forwards to the array. -/
def arrayComparisonToEvaluator (acmp : ArrayComparison) (replCtx : EvalReplacementContext)
    (state : State) : Except CompileError (Evaluator × Position × State) :=
  match acmp with
  | ArrayComparison.mk _pos _op arr => astArrayToEvaluator arr replCtx state

/-! nodeToEvaluator, split by node type: each function below is the case arm
of the source switch for the corresponding AST type. -/

mutual
def expressionToEvaluator : Expression → EvalReplacementContext → State →
    Except CompileError (Evaluator × Position × State)
  | Expression.last pos cmp, replCtx, state => do
      let (c, _cpos, st1) ← comparisonToEvaluator cmp replCtx state
      Except.ok (c, pos, st1)
  | Expression.chain pos cmp op next, replCtx, state => do
      let (c, _cpos, st1) ← comparisonToEvaluator cmp replCtx state
      match c with
      | Evaluator.boolEv cmpBool => do
          let (n, npos, st2) ← expressionToEvaluator next replCtx st1
          match n with
          | Evaluator.boolEv nextBool =>
              match op with
              | "||" | "or" => Except.ok (Evaluator.boolEv (Or cmpBool nextBool), pos, st2)
              | "&&" | "and" => Except.ok (Evaluator.boolEv (And cmpBool nextBool), pos, st2)
              | _ => Except.error (CompileError.opUnknown pos op)
          | _ => Except.error (CompileError.typeError npos "bool")
      | _ => Except.error (CompileError.typeError pos "bool")

def comparisonToEvaluator : Comparison → EvalReplacementContext → State →
    Except CompileError (Evaluator × Position × State)
  | Comparison.plain _pos bitOp, replCtx, state => bitOperationToEvaluator bitOp replCtx state
  | Comparison.withArray pos bitOp (ArrayComparison.mk apos aop arr), replCtx, state => do
      let (unary, _upos, st1) ← bitOperationToEvaluator bitOp replCtx state
      let (next, npos, st2) ←
        arrayComparisonToEvaluator (ArrayComparison.mk apos aop arr) replCtx st1
      let (ev, rpos) ← arrayDispatch pos npos aop unary next
      Except.ok (ev, rpos, st2)
  | Comparison.withScalar pos bitOp (ScalarComparison.mk spos sop nextCmp), replCtx, state => do
      let (unary, _upos, st1) ← bitOperationToEvaluator bitOp replCtx state
      let (next, npos, st2) ←
        scalarComparisonToEvaluator (ScalarComparison.mk spos sop nextCmp) replCtx st1
      let (ev, rpos) ← scalarDispatch pos npos sop unary next
      Except.ok (ev, rpos, st2)

def scalarComparisonToEvaluator : ScalarComparison → EvalReplacementContext → State →
    Except CompileError (Evaluator × Position × State)
  | ScalarComparison.mk _pos _op next, replCtx, state => comparisonToEvaluator next replCtx state

def bitOperationToEvaluator : BitOperation → EvalReplacementContext → State →
    Except CompileError (Evaluator × Position × State)
  | BitOperation.single _pos u, replCtx, state => unaryToEvaluator u replCtx state
  | BitOperation.chain pos u op next, replCtx, state => do
      let (un, _upos, st1) ← unaryToEvaluator u replCtx state
      match un with
      | Evaluator.intEv bitInt => do
          let (n, npos, st2) ← bitOperationToEvaluator next replCtx st1
          match n with
          | Evaluator.intEv nextInt =>
              match op with
              | "&" => Except.ok (Evaluator.intEv (IntAnd bitInt nextInt), pos, st2)
              | "|" => Except.ok (Evaluator.intEv (IntOr bitInt nextInt), pos, st2)
              | "^" => Except.ok (Evaluator.intEv (IntXor bitInt nextInt), pos, st2)
              | _ => Except.error (CompileError.opUnknown pos op)
          | _ => Except.error (CompileError.typeError npos "int")
      | _ => Except.error (CompileError.typeError pos "int")

def unaryToEvaluator : Unary → EvalReplacementContext → State →
    Except CompileError (Evaluator × Position × State)
  | Unary.withOp pos op u, replCtx, state => do
      let (un, upos, st1) ← unaryToEvaluator u replCtx state
      match op with
      | "!" | "not" =>
          (match un with
           | Evaluator.boolEv b => Except.ok (Evaluator.boolEv (Not b), pos, st1)
           | _ => Except.error (CompileError.typeError upos "bool"))
      | "-" =>
          (match un with
           | Evaluator.intEv i => Except.ok (Evaluator.intEv (Minus i), upos, st1)
           | _ => Except.error (CompileError.typeError upos "int"))
      | "^" =>
          (match un with
           | Evaluator.intEv i => Except.ok (Evaluator.intEv (IntNot i), upos, st1)
           | _ => Except.error (CompileError.typeError upos "int"))
      | _ => Except.error (CompileError.opUnknown pos op)
  | Unary.primary _pos p, replCtx, state => primaryToEvaluator p replCtx state

def primaryToEvaluator : Primary → EvalReplacementContext → State →
    Except CompileError (Evaluator × Position × State)
  | Primary.identP pos name, replCtx, state =>
      identToEvaluator { pos := pos, ident := name } replCtx state
  | Primary.number pos n, _replCtx, state =>
      Except.ok (Evaluator.intEv { value := n }, pos, state)
  | Primary.varP pos v, replCtx, state =>
      (match isVariableName v with
       | none => Except.error (CompileError.message pos "internal variable error")
       | some varname =>
           match evaluatorFromVariable varname pos replCtx with
           | Except.ok (ev, p) => Except.ok (ev, p, state)
           | Except.error e => Except.error e)
  | Primary.durationP pos n, _replCtx, state =>
      Except.ok (Evaluator.intEv { value := n, isDuration := Bool.true }, pos, state)
  | Primary.stringP pos s, replCtx, state =>
      if !(findVarSpans 0 s.toList).isEmpty then
        match stringEvaluatorFromVariable s pos replCtx with
        | Except.ok (ev, p) => Except.ok (ev, p, state)
        | Except.error e => Except.error e
      else
        Except.ok (Evaluator.stringEv { value := s, valueType := ValueType.scalar }, pos, state)
  | Primary.patternP pos s, _replCtx, state =>
      Except.ok (Evaluator.stringEv { value := s, valueType := ValueType.pattern }, pos, state)
  | Primary.regexpP pos s, _replCtx, state =>
      Except.ok (Evaluator.stringEv { value := s, valueType := ValueType.regexp }, pos, state)
  | Primary.ipP pos s, _replCtx, state =>
      (match ParseCIDR s with
       | Except.ok ipnet =>
           Except.ok (Evaluator.cidrEv { value := ipnet, valueType := ValueType.ipnet }, pos, state)
       | Except.error _ => Except.error (CompileError.message pos ("invalid IP " ++ s)))
  | Primary.cidrP pos s, _replCtx, state =>
      (match ParseCIDR s with
       | Except.ok ipnet =>
           Except.ok (Evaluator.cidrEv { value := ipnet, valueType := ValueType.ipnet }, pos, state)
       | Except.error _ => Except.error (CompileError.message pos ("invalid CIDR " ++ s)))
  | Primary.subExpression _pos e, replCtx, state => expressionToEvaluator e replCtx state
end

/-- nodeToEvaluator case for ast.BooleanExpression: forwards to the expression. -/
def booleanExpressionToEvaluator (be : BooleanExpression) (replCtx : EvalReplacementContext)
    (state : State) : Except CompileError (Evaluator × Position × State) :=
  expressionToEvaluator be.expression replCtx state

/-! Claim C5: override dispatch of the four wrapper functions. -/

/-- C5: for each override wrapper, when both operands expose the matched
override the left one is used; when exactly one exposes it, that one is used;
otherwise the default combinator is used. The right-hand operands of the
values/matches wrappers are constant value sets, which carry no override
table, so there only the left operand can expose an override. -/
theorem c5_override_dispatch (a b : StringEvaluator) (sa : StringArrayEvaluator)
    (sv : StringValuesEvaluator) :
    ((∀ f, a.opOverrides.bind OpOverrides.stringEquals = some f →
        StringEqualsWrapper a b = f a.toStringEvaluatorBase b.toStringEvaluatorBase)
      ∧ (∀ f, a.opOverrides.bind OpOverrides.stringEquals = none →
          b.opOverrides.bind OpOverrides.stringEquals = some f →
          StringEqualsWrapper a b = f a.toStringEvaluatorBase b.toStringEvaluatorBase)
      ∧ (a.opOverrides.bind OpOverrides.stringEquals = none →
          b.opOverrides.bind OpOverrides.stringEquals = none →
          StringEqualsWrapper a b = StringEquals a b))
    ∧ ((∀ f, a.opOverrides.bind OpOverrides.stringArrayContains = some f →
        StringArrayContainsWrapper a sa = f a.toStringEvaluatorBase sa.toStringArrayEvaluatorBase)
      ∧ (∀ f, a.opOverrides.bind OpOverrides.stringArrayContains = none →
          sa.opOverrides.bind OpOverrides.stringArrayContains = some f →
          StringArrayContainsWrapper a sa = f a.toStringEvaluatorBase sa.toStringArrayEvaluatorBase)
      ∧ (a.opOverrides.bind OpOverrides.stringArrayContains = none →
          sa.opOverrides.bind OpOverrides.stringArrayContains = none →
          StringArrayContainsWrapper a sa = StringArrayContains a sa))
    ∧ ((∀ f, a.opOverrides.bind OpOverrides.stringValuesContains = some f →
        StringValuesContainsWrapper a sv = f a.toStringEvaluatorBase sv)
      ∧ (a.opOverrides.bind OpOverrides.stringValuesContains = none →
          StringValuesContainsWrapper a sv = StringValuesContains a sv))
    ∧ ((∀ f, sa.opOverrides.bind OpOverrides.stringArrayMatches = some f →
        StringArrayMatchesWrapper sa sv = f sa.toStringArrayEvaluatorBase sv)
      ∧ (sa.opOverrides.bind OpOverrides.stringArrayMatches = none →
          StringArrayMatchesWrapper sa sv = StringArrayMatches sa sv)) := by
  refine ⟨⟨?_, ?_, ?_⟩, ⟨?_, ?_, ?_⟩, ⟨?_, ?_⟩, ⟨?_, ?_⟩⟩ <;>
    intros <;>
    simp only [StringEqualsWrapper, StringArrayContainsWrapper, StringValuesContainsWrapper,
      StringArrayMatchesWrapper, *]

/-- A concrete override used by the C5 witness. -/
def c5OverrideFnc : StringEvaluatorBase → StringEvaluatorBase → BoolEvaluator :=
  fun _ _ => { value := Bool.true }

def c5LeftOperand : StringEvaluator :=
  { value := "x", opOverrides := some { stringEquals := some c5OverrideFnc } }

def c5PlainOperand : StringEvaluator := { value := "y" }

def c5PlainArray : StringArrayEvaluator := { values := ["z"] }

def c5PlainValues : StringValuesEvaluator := { values := [("z", ValueType.scalar)] }

theorem c5_override_dispatch_witness :
    StringEqualsWrapper c5LeftOperand c5PlainOperand
        = c5OverrideFnc c5LeftOperand.toStringEvaluatorBase c5PlainOperand.toStringEvaluatorBase
    ∧ StringEqualsWrapper c5PlainOperand c5PlainOperand
        = StringEquals c5PlainOperand c5PlainOperand
    ∧ StringArrayMatchesWrapper c5PlainArray c5PlainValues
        = StringArrayMatches c5PlainArray c5PlainValues :=
  ⟨(c5_override_dispatch c5LeftOperand c5PlainOperand c5PlainArray c5PlainValues).1.1
      c5OverrideFnc rfl,
   (c5_override_dispatch c5PlainOperand c5PlainOperand c5PlainArray c5PlainValues).1.2.2
      rfl rfl,
   (c5_override_dispatch c5PlainOperand c5PlainOperand c5PlainArray c5PlainValues).2.2.2.2
      rfl⟩

/-! Claim C7: `notin` compiles to the `in` evaluator wrapped in Not. -/

theorem exceptBind_ok {ε α β : Type} (a : α) (f : α → Except ε β) :
    (Except.ok a : Except ε α) >>= f = f a := rfl

theorem exceptBind_error {ε α β : Type} (e : ε) (f : α → Except ε β) :
    (Except.error e : Except ε α) >>= f = Except.error e := rfl

/-- Unfolding equation for the array-comparison case of the tree walk. -/
theorem comparisonToEvaluator_withArray (pos apos : Position) (op : String) (arr : AstArray)
    (bitOp : BitOperation) (replCtx : EvalReplacementContext) (st : State) :
    comparisonToEvaluator (Comparison.withArray pos bitOp (ArrayComparison.mk apos op arr))
        replCtx st =
      match bitOperationToEvaluator bitOp replCtx st with
      | Except.error e => Except.error e
      | Except.ok (unary, _upos, st1) =>
        match astArrayToEvaluator arr replCtx st1 with
        | Except.error e => Except.error e
        | Except.ok (next, npos, st2) =>
          match arrayDispatch pos npos op unary next with
          | Except.error e => Except.error e
          | Except.ok (ev, rpos) => Except.ok (ev, rpos, st2) := by
  rw [comparisonToEvaluator]
  simp only [arrayComparisonToEvaluator]
  cases bitOperationToEvaluator bitOp replCtx st with
  | error e => rfl
  | ok r =>
      obtain ⟨u, p, s⟩ := r
      simp only [exceptBind_ok]
      cases astArrayToEvaluator arr replCtx s with
      | error e => rfl
      | ok r2 =>
          obtain ⟨n, np, s2⟩ := r2
          simp only [exceptBind_ok]
          cases arrayDispatch pos np op u n with
          | error e => rfl
          | ok r3 => rfl

/-- Unfolding equation for the scalar-comparison case of the tree walk. -/
theorem comparisonToEvaluator_withScalar (pos spos : Position) (op : String) (nextCmp : Comparison)
    (bitOp : BitOperation) (replCtx : EvalReplacementContext) (st : State) :
    comparisonToEvaluator (Comparison.withScalar pos bitOp (ScalarComparison.mk spos op nextCmp))
        replCtx st =
      match bitOperationToEvaluator bitOp replCtx st with
      | Except.error e => Except.error e
      | Except.ok (unary, _upos, st1) =>
        match comparisonToEvaluator nextCmp replCtx st1 with
        | Except.error e => Except.error e
        | Except.ok (next, npos, st2) =>
          match scalarDispatch pos npos op unary next with
          | Except.error e => Except.error e
          | Except.ok (ev, rpos) => Except.ok (ev, rpos, st2) := by
  rw [comparisonToEvaluator]
  simp only [scalarComparisonToEvaluator]
  cases bitOperationToEvaluator bitOp replCtx st with
  | error e => rfl
  | ok r =>
      obtain ⟨u, p, s⟩ := r
      simp only [exceptBind_ok]
      cases comparisonToEvaluator nextCmp replCtx s with
      | error e => rfl
      | ok r2 =>
          obtain ⟨n, np, s2⟩ := r2
          simp only [exceptBind_ok]
          cases scalarDispatch pos np op u n with
          | error e => rfl
          | ok r3 => rfl

theorem arrayDispatch_notin_of_in (p q : Position) (u n : Evaluator) (ev : Evaluator)
    (r : Position) (h : arrayDispatch p q "in" u n = Except.ok (ev, r)) :
    ∃ b : BoolEvaluator, ev = Evaluator.boolEv b ∧
      arrayDispatch p q "notin" u n = Except.ok (Evaluator.boolEv (Not b), r) := by
  cases u <;> cases n <;>
    simp_all [arrayDispatch] <;>
    exact ⟨_, h.1.symm, by simp [h.2]⟩

/-- C7: whenever a comparison `a in S` compiles, the same comparison with
`notin` compiles to the `in` evaluator wrapped in Not, over the same final
state, and its evaluation is the boolean negation for every Context. -/
theorem c7_notin_is_not_in (pos apos : Position) (bitOp : BitOperation) (arr : AstArray)
    (replCtx : EvalReplacementContext) (st : State) (ev : Evaluator) (rpos : Position)
    (st2 : State)
    (h : comparisonToEvaluator (Comparison.withArray pos bitOp (ArrayComparison.mk apos "in" arr))
        replCtx st = Except.ok (ev, rpos, st2)) :
    ∃ b : BoolEvaluator, ev = Evaluator.boolEv b ∧
      comparisonToEvaluator (Comparison.withArray pos bitOp (ArrayComparison.mk apos "notin" arr))
        replCtx st = Except.ok (Evaluator.boolEv (Not b), rpos, st2) ∧
      ∀ ctx : Context, (Not b).eval ctx = !(b.eval ctx) := by
  rw [comparisonToEvaluator_withArray] at h ⊢
  cases hb : bitOperationToEvaluator bitOp replCtx st with
  | error e => simp [hb] at h
  | ok resb =>
      obtain ⟨unary, upos, st1⟩ := resb
      simp only [hb] at h ⊢
      cases ha : astArrayToEvaluator arr replCtx st1 with
      | error e => simp [ha] at h
      | ok resa =>
          obtain ⟨next, npos, stn⟩ := resa
          simp only [ha] at h ⊢
          cases hd : arrayDispatch pos npos "in" unary next with
          | error e => simp [hd] at h
          | ok resd =>
              obtain ⟨dev, dpos⟩ := resd
              simp only [hd] at h
              obtain ⟨b, hbEq, hnot⟩ := arrayDispatch_notin_of_in pos npos unary next dev dpos hd
              cases h
              exact ⟨b, by simp [hbEq], by simp [hnot], fun ctx => eval_Not b ctx⟩

def c7WitnessComparison (op : String) : Comparison :=
  Comparison.withArray 0 (BitOperation.single 0 (Unary.primary 0 (Primary.number 0 3)))
    (ArrayComparison.mk 0 op { pos := 0, numbers := [1, 2, 3] })

def c7WitnessModel : Model :=
  { getIterator := fun _ => Except.error "no iterator",
    getEvaluator := fun _ _ => Except.error "no evaluator" }

def c7WitnessState : State := { model := c7WitnessModel }

def c7WitnessReplCtx : EvalReplacementContext := { opts := {} }

theorem c7_notin_is_not_in_witness :
    ∃ b : BoolEvaluator,
      Evaluator.boolEv (IntArrayEquals { value := 3 } { values := [1, 2, 3] })
          = Evaluator.boolEv b ∧
      comparisonToEvaluator (c7WitnessComparison "notin") c7WitnessReplCtx c7WitnessState
          = Except.ok (Evaluator.boolEv (Not b), 0, c7WitnessState) ∧
      ∀ ctx : Context, (Not b).eval ctx = !(b.eval ctx) :=
  c7_notin_is_not_in 0 0 (BitOperation.single 0 (Unary.primary 0 (Primary.number 0 3)))
    { pos := 0, numbers := [1, 2, 3] } c7WitnessReplCtx c7WitnessState
    (Evaluator.boolEv (IntArrayEquals { value := 3 } { values := [1, 2, 3] })) 0
    c7WitnessState rfl

/-! Claim C10: a scalar CIDR against a scalar CIDR under `in`/`allin`/`notin`. -/

/-- C10: when both operands of an array comparison compile to scalar CIDR
evaluators, `in` and `allin` are accepted and compile to the CIDREquals
combinator, `notin` compiles to its negation, and no type error is raised;
CIDREquals evaluates to network equality. -/
theorem c10_cidr_scalar_membership (pos apos p1 p2 : Position) (bitOp : BitOperation)
    (arr : AstArray) (replCtx : EvalReplacementContext) (st st1 st2 : State)
    (a b : CIDREvaluator)
    (hu : bitOperationToEvaluator bitOp replCtx st = Except.ok (Evaluator.cidrEv a, p1, st1))
    (hn : astArrayToEvaluator arr replCtx st1 = Except.ok (Evaluator.cidrEv b, p2, st2)) :
    (comparisonToEvaluator (Comparison.withArray pos bitOp (ArrayComparison.mk apos "in" arr))
        replCtx st = Except.ok (Evaluator.boolEv (CIDREquals a b), pos, st2))
    ∧ (comparisonToEvaluator (Comparison.withArray pos bitOp (ArrayComparison.mk apos "allin" arr))
        replCtx st = Except.ok (Evaluator.boolEv (CIDREquals a b), pos, st2))
    ∧ (comparisonToEvaluator (Comparison.withArray pos bitOp (ArrayComparison.mk apos "notin" arr))
        replCtx st = Except.ok (Evaluator.boolEv (Not (CIDREquals a b)), pos, st2))
    ∧ (∀ ctx : Context, (CIDREquals a b).eval ctx = (a.eval ctx == b.eval ctx)) := by
  refine ⟨?_, ?_, ?_, fun ctx => rfl⟩ <;>
    (rw [comparisonToEvaluator_withArray]; simp [hu, hn, arrayDispatch])

/-- The CIDR accessor of the C10 witness model. -/
def c10DestAccessor : CIDREvaluator :=
  { evalFnc := some fun _ => { addr := 0, maskLen := 32 }, field := "connect.dest" }

def c10Model : Model :=
  { getIterator := fun _ => Except.error "iterator not found",
    getEvaluator := fun f _ =>
      if f = "connect.dest" then Except.ok (Evaluator.cidrEv c10DestAccessor)
      else Except.error "field not found" }

def c10State : State := { model := c10Model }

def c10ReplCtx : EvalReplacementContext := { opts := {} }

def c10Lhs : BitOperation :=
  BitOperation.single 1 (Unary.primary 1 (Primary.ipP 1 "10.0.0.1"))

def c10Rhs : AstArray := { pos := 2, identA := some "connect.dest" }

def c10LhsNet : CIDREvaluator :=
  { value := { addr := 167772161, maskLen := 32 }, valueType := ValueType.ipnet }

def c10StateAfter : State := { c10State with fields := ["connect.dest"] }

theorem c10_cidr_scalar_membership_witness :
    (comparisonToEvaluator (Comparison.withArray 0 c10Lhs (ArrayComparison.mk 2 "in" c10Rhs))
        c10ReplCtx c10State
      = Except.ok (Evaluator.boolEv (CIDREquals c10LhsNet c10DestAccessor), 0, c10StateAfter))
    ∧ (comparisonToEvaluator (Comparison.withArray 0 c10Lhs (ArrayComparison.mk 2 "allin" c10Rhs))
        c10ReplCtx c10State
      = Except.ok (Evaluator.boolEv (CIDREquals c10LhsNet c10DestAccessor), 0, c10StateAfter))
    ∧ (comparisonToEvaluator (Comparison.withArray 0 c10Lhs (ArrayComparison.mk 2 "notin" c10Rhs))
        c10ReplCtx c10State
      = Except.ok (Evaluator.boolEv (Not (CIDREquals c10LhsNet c10DestAccessor)), 0, c10StateAfter))
    ∧ (∀ ctx : Context,
        (CIDREquals c10LhsNet c10DestAccessor).eval ctx
          = (c10LhsNet.eval ctx == c10DestAccessor.eval ctx)) :=
  c10_cidr_scalar_membership 0 2 1 2 c10Lhs c10Rhs c10ReplCtx c10State c10State c10StateAfter
    c10LhsNet c10DestAccessor rfl rfl

/-! Claim C2: comparisons against a duration literal. -/

/-- C2Amended: the scalar dispatch keys only on the duration flag of the
right-hand integer evaluator. Any integer left operand compared against a
duration-typed right operand with an ordering operator compiles to the
corresponding duration combinator (no type error is raised, whether or not
the left operand is duration-typed); `==` and `!=` against a duration-typed
right operand fall through to a type error. The duration combinators compare
the window relative to the Context clock. -/
theorem c2_duration_literal_dispatch (pos spos p1 p2 : Position) (bitOp : BitOperation)
    (nextCmp : Comparison) (replCtx : EvalReplacementContext) (st st1 st2 : State)
    (a b : IntEvaluator)
    (hu : bitOperationToEvaluator bitOp replCtx st = Except.ok (Evaluator.intEv a, p1, st1))
    (hn : comparisonToEvaluator nextCmp replCtx st1 = Except.ok (Evaluator.intEv b, p2, st2))
    (hd : b.isDuration = Bool.true) :
    (comparisonToEvaluator
        (Comparison.withScalar pos bitOp (ScalarComparison.mk spos "<" nextCmp)) replCtx st
      = Except.ok (Evaluator.boolEv (DurationLesserThan a b), pos, st2))
    ∧ (comparisonToEvaluator
        (Comparison.withScalar pos bitOp (ScalarComparison.mk spos "<=" nextCmp)) replCtx st
      = Except.ok (Evaluator.boolEv (DurationLesserOrEqualThan a b), pos, st2))
    ∧ (comparisonToEvaluator
        (Comparison.withScalar pos bitOp (ScalarComparison.mk spos ">" nextCmp)) replCtx st
      = Except.ok (Evaluator.boolEv (DurationGreaterThan a b), pos, st2))
    ∧ (comparisonToEvaluator
        (Comparison.withScalar pos bitOp (ScalarComparison.mk spos ">=" nextCmp)) replCtx st
      = Except.ok (Evaluator.boolEv (DurationGreaterOrEqualThan a b), pos, st2))
    ∧ (comparisonToEvaluator
        (Comparison.withScalar pos bitOp (ScalarComparison.mk spos "==" nextCmp)) replCtx st
      = Except.error (CompileError.typeError p2 "int"))
    ∧ (comparisonToEvaluator
        (Comparison.withScalar pos bitOp (ScalarComparison.mk spos "!=" nextCmp)) replCtx st
      = Except.error (CompileError.typeError p2 "int"))
    ∧ (∀ ctx : Context,
        (DurationGreaterThan a b).eval ctx = decide (b.eval ctx < ctx.now - a.eval ctx)) := by
  refine ⟨?_, ?_, ?_, ?_, ?_, ?_, fun ctx => rfl⟩ <;>
    (rw [comparisonToEvaluator_withScalar]; simp [hu, hn, scalarDispatch, hd])

/-- The non-duration integer accessor of the C2 model (a plain file size). -/
def c2FileSizeAccessor : IntEvaluator :=
  { evalFnc := some fun ctx => ctx.intAt "file.size", field := "file.size" }

def c2Model : Model :=
  { getIterator := fun _ => Except.error "iterator not found",
    getEvaluator := fun f _ =>
      if f = "file.size" then Except.ok (Evaluator.intEv c2FileSizeAccessor)
      else Except.error "field not found" }

def c2State : State := { model := c2Model }

def c2ReplCtx : EvalReplacementContext := { opts := {} }

/-- The duration literal 1h, in nanoseconds, as the duration AST node yields it. -/
def c2OneHour : IntEvaluator := { value := 3600000000000, isDuration := Bool.true }

def c2Lhs : BitOperation := BitOperation.single 1 (Unary.primary 1 (Primary.identP 1 "file.size"))

def c2Rhs : Comparison :=
  Comparison.plain 3 (BitOperation.single 3 (Unary.primary 3 (Primary.durationP 3 3600000000000)))

def c2StateAfter : State := { c2State with fields := ["file.size"] }

/-- C2Counterexample: compiling `file.size > 1h`, with `file.size` a
non-duration integer field, succeeds (no type error) and emits the
DurationGreaterThan combinator. -/
theorem c2_duration_literal_counterexample :
    comparisonToEvaluator (Comparison.withScalar 0 c2Lhs (ScalarComparison.mk 2 ">" c2Rhs))
        c2ReplCtx c2State
      = Except.ok (Evaluator.boolEv (DurationGreaterThan c2FileSizeAccessor c2OneHour), 0,
          c2StateAfter)
    ∧ c2FileSizeAccessor.isDuration = Bool.false := ⟨rfl, rfl⟩

theorem c2_duration_literal_dispatch_witness :
    comparisonToEvaluator (Comparison.withScalar 0 c2Lhs (ScalarComparison.mk 2 "<" c2Rhs))
        c2ReplCtx c2State
      = Except.ok (Evaluator.boolEv (DurationLesserThan c2FileSizeAccessor c2OneHour), 0,
          c2StateAfter) :=
  (c2_duration_literal_dispatch 0 2 1 3 c2Lhs c2Rhs c2ReplCtx c2State c2StateAfter c2StateAfter
    c2FileSizeAccessor c2OneHour rfl rfl rfl).1

/-! Claim C6: pattern operators require a static right-hand side and promote
a scalar literal to a pattern. -/

/-- C6: under `=~` and `!~`, a function-backed (non-literal) right-hand string
evaluator is rejected with the non-static-pattern error; a literal right-hand
side whose value type is Scalar is promoted to Pattern before the combinator
is emitted and compilation succeeds. Both the string left-operand case and the
string-array left-operand case are covered. -/
theorem c6_nonstatic_pattern_and_promotion (pos spos p1 p2 : Position) (bitOp : BitOperation)
    (nextCmp : Comparison) (replCtx : EvalReplacementContext) (st st1 st2 : State)
    (n : StringEvaluator)
    (hn : comparisonToEvaluator nextCmp replCtx st1 = Except.ok (Evaluator.stringEv n, p2, st2)) :
    (∀ u : StringEvaluator,
      bitOperationToEvaluator bitOp replCtx st = Except.ok (Evaluator.stringEv u, p1, st1) →
        ((∀ f, n.evalFnc = some f →
            comparisonToEvaluator
                (Comparison.withScalar pos bitOp (ScalarComparison.mk spos "=~" nextCmp)) replCtx st
              = Except.error (CompileError.nonStaticPattern n.field)
            ∧ comparisonToEvaluator
                (Comparison.withScalar pos bitOp (ScalarComparison.mk spos "!~" nextCmp)) replCtx st
              = Except.error (CompileError.nonStaticPattern n.field))
          ∧ (n.evalFnc = none → n.valueType = ValueType.scalar →
            comparisonToEvaluator
                (Comparison.withScalar pos bitOp (ScalarComparison.mk spos "=~" nextCmp)) replCtx st
              = Except.ok (Evaluator.boolEv
                  (StringEqualsWrapper u { n with valueType := ValueType.pattern }), pos, st2)
            ∧ comparisonToEvaluator
                (Comparison.withScalar pos bitOp (ScalarComparison.mk spos "!~" nextCmp)) replCtx st
              = Except.ok (Evaluator.boolEv
                  (Not (StringEqualsWrapper u { n with valueType := ValueType.pattern })), pos,
                  st2))))
    ∧ (∀ sa : StringArrayEvaluator,
      bitOperationToEvaluator bitOp replCtx st = Except.ok (Evaluator.stringArrayEv sa, p1, st1) →
        ((∀ f, n.evalFnc = some f →
            comparisonToEvaluator
                (Comparison.withScalar pos bitOp (ScalarComparison.mk spos "=~" nextCmp)) replCtx st
              = Except.error (CompileError.nonStaticPattern n.field)
            ∧ comparisonToEvaluator
                (Comparison.withScalar pos bitOp (ScalarComparison.mk spos "!~" nextCmp)) replCtx st
              = Except.error (CompileError.nonStaticPattern n.field))
          ∧ (n.evalFnc = none → n.valueType = ValueType.scalar →
            comparisonToEvaluator
                (Comparison.withScalar pos bitOp (ScalarComparison.mk spos "=~" nextCmp)) replCtx st
              = Except.ok (Evaluator.boolEv
                  (StringArrayContainsWrapper { n with valueType := ValueType.pattern } sa), pos,
                  st2)
            ∧ comparisonToEvaluator
                (Comparison.withScalar pos bitOp (ScalarComparison.mk spos "!~" nextCmp)) replCtx st
              = Except.ok (Evaluator.boolEv
                  (Not (StringArrayContainsWrapper { n with valueType := ValueType.pattern } sa)),
                  pos, st2)))) := by
  constructor
  · intro u hu
    constructor
    · intro f hf
      constructor <;> (rw [comparisonToEvaluator_withScalar]; simp [hu, hn, scalarDispatch, hf])
    · intro hfnone hscalar
      constructor <;>
        (rw [comparisonToEvaluator_withScalar]; simp [hu, hn, scalarDispatch, hfnone, hscalar])
  · intro sa hu
    constructor
    · intro f hf
      constructor <;> (rw [comparisonToEvaluator_withScalar]; simp [hu, hn, scalarDispatch, hf])
    · intro hfnone hscalar
      constructor <;>
        (rw [comparisonToEvaluator_withScalar]; simp [hu, hn, scalarDispatch, hfnone, hscalar])

/-- The string accessors of the C6 witness model. -/
def c6PathAccessor : StringEvaluator :=
  { evalFnc := some fun ctx => ctx.stringAt "exec.path", field := "exec.path" }

def c6OtherAccessor : StringEvaluator :=
  { evalFnc := some fun ctx => ctx.stringAt "other.name", field := "other.name" }

def c6Model : Model :=
  { getIterator := fun _ => Except.error "iterator not found",
    getEvaluator := fun f _ =>
      if f = "exec.path" then Except.ok (Evaluator.stringEv c6PathAccessor)
      else if f = "other.name" then Except.ok (Evaluator.stringEv c6OtherAccessor)
      else Except.error "field not found" }

def c6State : State := { model := c6Model }

def c6ReplCtx : EvalReplacementContext := { opts := {} }

def c6Lhs : BitOperation := BitOperation.single 1 (Unary.primary 1 (Primary.identP 1 "exec.path"))

def c6StateAfterLhs : State := { c6State with fields := ["exec.path"] }

/-- Scalar string literal right-hand side. -/
def c6LiteralRhs : Comparison :=
  Comparison.plain 3 (BitOperation.single 3 (Unary.primary 3 (Primary.stringP 3 "ab*")))

/-- Accessor-backed right-hand side. -/
def c6AccessorRhs : Comparison :=
  Comparison.plain 3 (BitOperation.single 3 (Unary.primary 3 (Primary.identP 3 "other.name")))

def c6StateAfterBoth : State := { c6State with fields := ["exec.path", "other.name"] }

def c6OtherFnc : Context → String := fun ctx => ctx.stringAt "other.name"

theorem c6_nonstatic_pattern_and_promotion_witness :
    (comparisonToEvaluator (Comparison.withScalar 0 c6Lhs (ScalarComparison.mk 2 "=~" c6AccessorRhs))
        c6ReplCtx c6State
      = Except.error (CompileError.nonStaticPattern "other.name"))
    ∧ (comparisonToEvaluator (Comparison.withScalar 0 c6Lhs (ScalarComparison.mk 2 "=~" c6LiteralRhs))
        c6ReplCtx c6State
      = Except.ok (Evaluator.boolEv
          (StringEqualsWrapper c6PathAccessor
            { value := "ab*", evalFnc := none, valueType := ValueType.pattern, field := "",
              opOverrides := none }), 0, c6StateAfterLhs)) :=
  ⟨((c6_nonstatic_pattern_and_promotion 0 2 1 3 c6Lhs c6AccessorRhs c6ReplCtx c6State
      c6StateAfterLhs c6StateAfterBoth c6OtherAccessor rfl).1 c6PathAccessor rfl).1
      c6OtherFnc rfl |>.1,
   ((c6_nonstatic_pattern_and_promotion 0 2 1 3 c6Lhs c6LiteralRhs c6ReplCtx c6State
      c6StateAfterLhs c6StateAfterLhs { value := "ab*", valueType := ValueType.scalar } rfl).1
      c6PathAccessor rfl).2 rfl rfl |>.1⟩

/-! Claim C4: identifiers with more than one subscript. The subscript-find
regex is matched with FindStringSubmatch, which yields the leftmost match and
its single group — a slice of length two — no matter how many subscripts the
identifier holds, so the wrong-register-format arm of the length switch is
unreachable and a two-subscript identifier extracts without error. -/

/-- C4: evaluating extractField at a two-subscript identifier: the register id
is taken from the first subscript, the resolved field keeps the first
subscript and drops only the last one, and no error is returned — the
submatch slice always has length two here, never hitting the default arm. -/
theorem c4_two_subscripts_extract_without_error :
    extractField "p.a[_].b[_].c" = Except.ok ("p.a[_].b.c", "p.a[_].b", "_")
    ∧ (findSubscriptSubmatchL "p.a[_].b[_].c".toList).length = 2 :=
  ⟨rfl, rfl⟩

/-! Claim C3: the iterator-detection walk for identifiers with an empty
extracted iterator field. -/

/-- C3Amended: when the extracted iterator field is empty, the walk queries
the Model at each dotted candidate of the field, left to right, and the first
answer supplies the iterator factory stored for the fresh register — but the
iterator-field recorded in registers_info stays the empty extracted iterator
field; the answering candidate is never written back. -/
theorem c3_walk_records_empty_iterator_field (identStr : String) (f : Field) (it : Iterator)
    (acc : Evaluator) (pos : Position) (replCtx : EvalReplacementContext) (st : State)
    (hconst : (replCtx.opts.constants).lookup identStr = none)
    (hmac : st.macros.lookup identStr = none)
    (hext : extractField identStr = Except.ok (f, "", ""))
    (hleg : replCtx.opts.legacyFields = none)
    (hwalk : walkIterator st.model f = some it)
    (hreg : st.registersInfo.lookup (randString st.freshCounter) = none)
    (hacc : st.model.getEvaluator f (randString st.freshCounter) = Except.ok acc) :
    identToEvaluator { pos := pos, ident := identStr } replCtx st =
      Except.ok (acc, pos,
        State.updateFields
          { st with
              freshCounter := st.freshCounter + 1,
              registersInfo := (randString st.freshCounter,
                RegisterInfo.mk "" it [f]) :: st.registersInfo }
          f) := by
  rw [identToEvaluator]
  simp [hconst, hmac, hext, hleg, hwalk, hreg, hacc, exceptBind_ok]

def c3Iterator : Iterator := { name := "p.a" }

def c3SubAccessor : IntEvaluator := { evalFnc := some fun ctx => ctx.intAt "p.a.f", field := "p.a.f" }

def c3Model : Model :=
  { getIterator := fun f => if f = "p.a" then Except.ok c3Iterator else Except.error "iterator not found",
    getEvaluator := fun f _ =>
      if f = "p.a.f" then Except.ok (Evaluator.intEv c3SubAccessor)
      else Except.error "field not found" }

def c3State : State := { model := c3Model }

def c3ReplCtx : EvalReplacementContext := { opts := {} }

/-- C3Counterexample: for the identifier `p.a.f` over a model whose iterator
lives at the answering candidate `p.a`, the registers_info entry created for
the fresh register records the empty string as its iterator-field, not `p.a`
(it does record the `p.a` iterator factory). -/
theorem c3_walk_records_empty_iterator_field_counterexample :
    identToEvaluator { pos := 1, ident := "p.a.f" } c3ReplCtx c3State =
      Except.ok (Evaluator.intEv c3SubAccessor, 1,
        { c3State with
            freshCounter := 1,
            registersInfo := [("reg0", RegisterInfo.mk "" c3Iterator ["p.a.f"])],
            fields := ["p.a.f"] })
    ∧ ("" : Field) ≠ "p.a" ∧ c3Iterator.name = "p.a" := by
  refine ⟨rfl, by decide, rfl⟩

theorem c3_walk_records_empty_iterator_field_witness :
    identToEvaluator { pos := 2, ident := "p.a.f" } c3ReplCtx c3State =
      Except.ok (Evaluator.intEv c3SubAccessor, 2,
        State.updateFields
          { c3State with
              freshCounter := 1,
              registersInfo := [("reg0", RegisterInfo.mk "" c3Iterator ["p.a.f"])] }
          "p.a.f") :=
  c3_walk_records_empty_iterator_field "p.a.f" "p.a.f" c3Iterator
    (Evaluator.intEv c3SubAccessor) 2 c3ReplCtx c3State rfl rfl rfl rfl rfl rfl rfl

/-! Helper lemmas about the subscript scanners, used to evaluate extractField
on identifiers with an arbitrary register literal. -/

theorem takeWhile_append_of_all {p : Char → Bool} {l : List Char}
    (h : ∀ c ∈ l, p c = true) (l' : List Char) :
    (l ++ l').takeWhile p = l ++ l'.takeWhile p := by
  induction l with
  | nil => simp
  | cons c t ih =>
      have hc : p c = true := h c (List.mem_cons_self c t)
      simp [List.takeWhile_cons, hc]
      exact ih fun d hd => h d (List.mem_cons_of_mem c hd)

theorem dropWhile_append_of_all {p : Char → Bool} {l : List Char}
    (h : ∀ c ∈ l, p c = true) (l' : List Char) :
    (l ++ l').dropWhile p = l'.dropWhile p := by
  induction l with
  | nil => simp
  | cons c t ih =>
      have hc : p c = true := h c (List.mem_cons_self c t)
      simp only [List.cons_append, List.dropWhile_cons, hc, if_true]
      exact ih fun d hd => h d (List.mem_cons_of_mem c hd)

theorem findSubscript_cons_ne (c : Char) (rest : List Char) (h : c ≠ '[') :
    findSubscriptSubmatchL (c :: rest) = findSubscriptSubmatchL rest := by
  rw [findSubscriptSubmatchL.eq_def]
  split
  · simp_all
  · simp_all
  · rename_i heq
    simp_all

theorem findSubscript_skip {l : List Char} (h : ∀ c ∈ l, c ≠ '[') (l' : List Char) :
    findSubscriptSubmatchL (l ++ l') = findSubscriptSubmatchL l' := by
  induction l with
  | nil => simp
  | cons c t ih =>
      rw [List.cons_append, findSubscript_cons_ne c _ (h c (List.mem_cons_self c t))]
      exact ih fun d hd => h d (List.mem_cons_of_mem c hd)

theorem findSubscript_at_bracket (x t : List Char) (hx : ∀ c ∈ x, c ≠ ']') :
    findSubscriptSubmatchL ('[' :: (x ++ ']' :: t)) =
      ["[" ++ String.mk x ++ "]", String.mk x] := by
  rw [findSubscriptSubmatchL]
  have hmem : (x ++ ']' :: t).contains ']' = true := by simp
  have htake : (x ++ ']' :: t).takeWhile (fun c => c != ']') = x := by
    rw [takeWhile_append_of_all (fun c hc => by simp [hx c hc])]
    simp [List.takeWhile_cons]
  simp [hmem, htake]

theorem lastBracket_cons_ne (pre : List Char) (c : Char) (rest : List Char) (h : c ≠ '[') :
    lastBracketSplit pre (c :: rest) = lastBracketSplit (pre ++ [c]) rest := by
  rw [lastBracketSplit]
  simp only [h, false_and, if_false]
  cases lastBracketSplit (pre ++ [c]) rest <;> simp

theorem lastBracket_none_of_no_bracket (l : List Char) (h : ∀ c ∈ l, c ≠ '[') :
    ∀ pre, lastBracketSplit pre l = none := by
  induction l with
  | nil => intro pre; rfl
  | cons c t ih =>
      intro pre
      rw [lastBracket_cons_ne pre c t (h c (List.mem_cons_self c t))]
      exact ih (fun d hd => h d (List.mem_cons_of_mem c hd)) _

theorem lastBracket_skip {l : List Char} (h : ∀ c ∈ l, c ≠ '[') (l' : List Char) :
    ∀ pre, lastBracketSplit pre (l ++ l') = lastBracketSplit (pre ++ l) l' := by
  induction l with
  | nil => intro pre; simp
  | cons c t ih =>
      intro pre
      rw [List.cons_append, lastBracket_cons_ne pre c _ (h c (List.mem_cons_self c t)), ih
        (fun d hd => h d (List.mem_cons_of_mem c hd))]
      simp

theorem lastBracket_at_bracket (pre x t : List Char) (hpre : pre ≠ []) (hx : x ≠ [])
    (hxb : ∀ c ∈ x, c ≠ '[' ∧ c ≠ ']') (ht : ∀ c ∈ t, c ≠ '[') :
    lastBracketSplit pre ('[' :: (x ++ ']' :: t)) = some (pre, t) := by
  rw [lastBracketSplit]
  have hrec : lastBracketSplit (pre ++ ['[']) (x ++ ']' :: t) = none := by
    apply lastBracket_none_of_no_bracket
    intro c hc
    rcases List.mem_append.mp hc with hcx | hct
    · exact (hxb c hcx).1
    · rcases List.mem_cons.mp hct with hcr | hct2
      · rw [hcr]; decide
      · exact ht c hct2
  have hdrop : (x ++ ']' :: t).dropWhile (fun d => d != ']') = ']' :: t := by
    rw [dropWhile_append_of_all (fun c hc => by simp [(hxb c hc).2])]
    simp [List.dropWhile_cons]
  have htake : (x ++ ']' :: t).takeWhile (fun d => d != ']') = x := by
    rw [takeWhile_append_of_all (fun c hc => by simp [(hxb c hc).2])]
    simp [List.takeWhile_cons]
  rw [hrec]
  simp [hpre, hdrop, htake, hx]

theorem stringMk_append (a b : List Char) : String.mk (a ++ b) = String.mk a ++ String.mk b := rfl

/-- extractField evaluated at an identifier of the shape `A[x]B`, where `A` is
nonempty and `A`, `x`, `B` are bracket-free and `x` is nonempty: the register
id is `x`, the resolved field is `A ++ B` and the iterator field `A`. -/
theorem extractField_single_subscript (A x B : String) (hA : A.toList ≠ [])
    (hAb : ∀ c ∈ A.toList, c ≠ '[' ∧ c ≠ ']') (hx : x.toList ≠ [])
    (hxb : ∀ c ∈ x.toList, c ≠ '[' ∧ c ≠ ']') (hBb : ∀ c ∈ B.toList, c ≠ '[' ∧ c ≠ ']') :
    extractField (A ++ "[" ++ x ++ "]" ++ B) = Except.ok (A ++ B, A, x) := by
  have hlist : (A ++ "[" ++ x ++ "]" ++ B).toList
      = A.toList ++ '[' :: (x.toList ++ ']' :: B.toList) := by
    simp
  rw [extractField, hlist,
    findSubscript_skip (fun c hc => (hAb c hc).1),
    findSubscript_at_bracket _ _ (fun c hc => (hxb c hc).2)]
  have hrepl : arraySubscriptReplace (A ++ "[" ++ x ++ "]" ++ B) = (A ++ B, A) := by
    rw [arraySubscriptReplace, hlist, lastBracket_skip (fun c hc => (hAb c hc).1),
      List.nil_append,
      lastBracket_at_bracket A.toList x.toList B.toList hA hx hxb
        (fun c hc => (hBb c hc).1)]
    simp [stringMk_append]
  rw [hrepl]
  rfl

/-! Claim C8: legacy-field rewriting. -/

/-- C8Amended: the first legacy lookup rewrites the resolved field; the second
lookup keys on the already-rewritten resolved field — not on the extracted
iterator field — and only its result, when present, is assigned to the
iterator field. An entry for the extracted iterator field is never consulted:
with a mapping holding entries for both extracted fields and none for the
rewritten resolved field, the iterator queried and recorded stays the
extracted iterator field, while the accessor and sub-field use the rewritten
resolved field. -/
theorem c8_legacy_rewrite_keys_on_resolved (identStr f0 itf0 f1 z : String) (it : Iterator)
    (acc : Evaluator) (pos : Position) (legacy : List (String × String))
    (replCtx : EvalReplacementContext) (st : State)
    (hconst : (replCtx.opts.constants).lookup identStr = none)
    (hmac : st.macros.lookup identStr = none)
    (hext : extractField identStr = Except.ok (f0, itf0, "_"))
    (hleg : replCtx.opts.legacyFields = some legacy)
    (hf : legacy.lookup f0 = some f1)
    (hf2 : legacy.lookup f1 = none)
    (_hit : legacy.lookup itf0 = some z)
    (hitne : itf0 ≠ "")
    (hgot : st.model.getIterator itf0 = Except.ok it)
    (hreg : st.registersInfo.lookup (randString st.freshCounter) = none)
    (hacc : st.model.getEvaluator f1 (randString st.freshCounter) = Except.ok acc) :
    identToEvaluator { pos := pos, ident := identStr } replCtx st =
      Except.ok (acc, pos,
        State.updateFields
          { st with
              freshCounter := st.freshCounter + 1,
              registersInfo := (randString st.freshCounter,
                RegisterInfo.mk itf0 it [f1]) :: st.registersInfo }
          f1) := by
  rw [identToEvaluator]
  simp [hconst, hmac, hext, hleg, hf, hf2, hitne, hgot, hreg, hacc, exceptBind_ok]

def c8Legacy : List (String × String) := [("a.b.c", "x.y.z"), ("a.b", "q.r")]

def c8Iterator : Iterator := { name := "a.b" }

def c8Accessor : IntEvaluator := { evalFnc := some fun ctx => ctx.intAt "x.y.z", field := "x.y.z" }

def c8Model : Model :=
  { getIterator := fun f => if f = "a.b" then Except.ok c8Iterator else Except.error "iterator not found",
    getEvaluator := fun f _ =>
      if f = "x.y.z" then Except.ok (Evaluator.intEv c8Accessor)
      else Except.error "field not found" }

def c8State : State := { model := c8Model }

def c8ReplCtx : EvalReplacementContext := { opts := { legacyFields := some c8Legacy } }

/-- C8Counterexample: with legacy entries for both the extracted resolved
field (`a.b.c` to `x.y.z`) and the extracted iterator field (`a.b` to `q.r`),
resolving `a.b[_].c` queries and records the iterator at `a.b`, not at the
mapped `q.r`: the iterator field is not rewritten even though the mapping has
an entry for it. -/
theorem c8_legacy_rewrite_keys_on_resolved_counterexample :
    identToEvaluator { pos := 1, ident := "a.b[_].c" } c8ReplCtx c8State =
      Except.ok (Evaluator.intEv c8Accessor, 1,
        { c8State with
            freshCounter := 1,
            registersInfo := [("reg0", RegisterInfo.mk "a.b" c8Iterator ["x.y.z"])],
            fields := ["x.y.z"] })
    ∧ c8Legacy.lookup "a.b" = some "q.r" ∧ ("a.b" : Field) ≠ "q.r" := by
  refine ⟨rfl, rfl, by decide⟩

theorem c8_legacy_rewrite_keys_on_resolved_witness :
    identToEvaluator { pos := 2, ident := "a.b[_].c" } c8ReplCtx c8State =
      Except.ok (Evaluator.intEv c8Accessor, 2,
        State.updateFields
          { c8State with
              freshCounter := 1,
              registersInfo := [("reg0", RegisterInfo.mk "a.b" c8Iterator ["x.y.z"])] }
          "x.y.z") :=
  c8_legacy_rewrite_keys_on_resolved "a.b[_].c" "a.b.c" "a.b" "x.y.z" "q.r" c8Iterator
    (Evaluator.intEv c8Accessor) 2 c8Legacy c8ReplCtx c8State rfl rfl rfl rfl rfl rfl rfl
    (by decide) rfl rfl rfl

/-! Claim C1: a literal register id shared by two iterator fields. -/

theorem toList_ne_nil (s : String) (h : s ≠ "") : s.toList ≠ [] := by
  intro hl
  apply h
  cases s with
  | mk data =>
      simp only [String.toList] at hl
      simp [hl]

def c1PaIterator : Iterator := { name := "p.a" }

def c1PbIterator : Iterator := { name := "p.b" }

def c1Model : Model :=
  { getIterator := fun f =>
      if f = "p.a" then Except.ok c1PaIterator
      else if f = "p.b" then Except.ok c1PbIterator
      else Except.error "iterator not found",
    getEvaluator := fun f _ =>
      if f = "p.a.f" then Except.ok (Evaluator.intEv { field := "p.a.f" })
      else if f = "p.b.g" then Except.ok (Evaluator.intEv { field := "p.b.g" })
      else Except.error "field not found" }

def c1State : State := { model := c1Model }

def c1ReplCtx : EvalReplacementContext := { opts := {} }

/-- The claim expression `p.a[x].f == 1 && p.b[x].g == 2`, with a literal
register id `x` in both subscripts. -/
def c1Expr (x : String) : Expression :=
  Expression.chain 0
    (Comparison.withScalar 1
      (BitOperation.single 1 (Unary.primary 1 (Primary.identP 1 ("p.a" ++ "[" ++ x ++ "]" ++ ".f"))))
      (ScalarComparison.mk 2 "=="
        (Comparison.plain 3 (BitOperation.single 3 (Unary.primary 3 (Primary.number 3 1))))))
    "&&"
    (Expression.last 4
      (Comparison.withScalar 4
        (BitOperation.single 4 (Unary.primary 4 (Primary.identP 4 ("p.b" ++ "[" ++ x ++ "]" ++ ".g"))))
        (ScalarComparison.mk 5 "=="
          (Comparison.plain 6 (BitOperation.single 6 (Unary.primary 6 (Primary.number 6 2)))))))

/-- C1Amended: a literal register id other than the placeholder is rejected
while resolving the first identifier, before any conflict detection: any
identifier `A[x]B` over an iterator at `A`, with a nonempty bracket-free
literal `x` that is neither empty nor the placeholder, fails with the
register-name-not-allowed error carrying `x`; hence the whole expression
`p.a[x].f == 1 && p.b[x].g == 2` fails with that error, not with the
register-used-by-multiple-fields error. -/
theorem c1_register_name_rejected :
    (∀ (A x B : String) (it : Iterator) (pos : Position) (replCtx : EvalReplacementContext)
        (st : State),
      (replCtx.opts.constants).lookup (A ++ "[" ++ x ++ "]" ++ B) = none →
      st.macros.lookup (A ++ "[" ++ x ++ "]" ++ B) = none →
      replCtx.opts.legacyFields = none →
      A ≠ "" → (∀ c ∈ A.toList, c ≠ '[' ∧ c ≠ ']') →
      x ≠ "" → x ≠ "_" → (∀ c ∈ x.toList, c ≠ '[' ∧ c ≠ ']') →
      (∀ c ∈ B.toList, c ≠ '[' ∧ c ≠ ']') →
      st.model.getIterator A = Except.ok it →
      identToEvaluator { pos := pos, ident := A ++ "[" ++ x ++ "]" ++ B } replCtx st
        = Except.error (CompileError.registerNameNotAllowed pos x))
    ∧ (∀ x : String, x ≠ "" → x ≠ "_" → (∀ c ∈ x.toList, c ≠ '[' ∧ c ≠ ']') →
        expressionToEvaluator (c1Expr x) c1ReplCtx c1State
          = Except.error (CompileError.registerNameNotAllowed 1 x)) := by
  have main : ∀ (A x B : String) (it : Iterator) (pos : Position)
      (replCtx : EvalReplacementContext) (st : State),
      (replCtx.opts.constants).lookup (A ++ "[" ++ x ++ "]" ++ B) = none →
      st.macros.lookup (A ++ "[" ++ x ++ "]" ++ B) = none →
      replCtx.opts.legacyFields = none →
      A ≠ "" → (∀ c ∈ A.toList, c ≠ '[' ∧ c ≠ ']') →
      x ≠ "" → x ≠ "_" → (∀ c ∈ x.toList, c ≠ '[' ∧ c ≠ ']') →
      (∀ c ∈ B.toList, c ≠ '[' ∧ c ≠ ']') →
      st.model.getIterator A = Except.ok it →
      identToEvaluator { pos := pos, ident := A ++ "[" ++ x ++ "]" ++ B } replCtx st
        = Except.error (CompileError.registerNameNotAllowed pos x) := by
    intro A x B it pos replCtx st hconst hmac hleg hA hAb hx hx2 hxb hBb hgot
    rw [identToEvaluator]
    simp only [hconst, hmac]
    rw [extractField_single_subscript A x B (toList_ne_nil A hA) hAb (toList_ne_nil x hx)
      hxb hBb]
    simp [hleg, hA, hgot, hx, hx2, exceptBind_ok, exceptBind_error]
  refine ⟨main, ?_⟩
  intro x hx hx2 hxb
  have hident := main "p.a" x ".f" c1PaIterator 1 c1ReplCtx c1State rfl rfl rfl
    (by decide) (by decide) hx hx2 hxb (by decide) rfl
  have hident2 : identToEvaluator { pos := 1, ident := "p.a[" ++ x ++ "]" ++ ".f" }
      c1ReplCtx c1State = Except.error (CompileError.registerNameNotAllowed 1 x) := by
    have heq : ("p.a[" ++ x ++ "]" ++ ".f") = ("p.a" ++ "[" ++ x ++ "]" ++ ".f") := by simp
    rw [heq]
    exact hident
  rw [c1Expr, expressionToEvaluator, comparisonToEvaluator_withScalar]
  simp [bitOperationToEvaluator, unaryToEvaluator, primaryToEvaluator, hident2,
    exceptBind_error, exceptBind_ok]

/-- C1Counterexample: at the literal register id `r`, the claim expression
fails compilation with the register-name-not-allowed error (carrying `r`), not
with the register-used-by-multiple-fields error. -/
theorem c1_register_name_rejected_counterexample :
    expressionToEvaluator (c1Expr "r") c1ReplCtx c1State
      = Except.error (CompileError.registerNameNotAllowed 1 "r")
    ∧ CompileError.registerNameNotAllowed 1 "r" ≠ CompileError.registerMultipleFields 1 "r" :=
  ⟨rfl, by decide⟩

theorem c1_register_name_rejected_witness :
    expressionToEvaluator (c1Expr "idx") c1ReplCtx c1State
      = Except.error (CompileError.registerNameNotAllowed 1 "idx") :=
  (c1_register_name_rejected).2 "idx" (by decide) (by decide) (by decide)

/-! Claim C9: interpolated string literals. -/

/-- A piece compiles without error: it is a literal, or a variable of one of
the four supported kinds. -/
def pieceResolvable (replCtx : EvalReplacementContext) (piece : String) : Bool :=
  match isVariableName piece with
  | some varname =>
      match (replCtx.opts.varStore).lookup varname with
      | some value =>
          match value.getEvaluator with
          | Evaluator.stringArrayEv _ => Bool.true
          | Evaluator.intArrayEv _ => Bool.true
          | Evaluator.stringEv _ => Bool.true
          | Evaluator.intEv _ => Bool.true
          | _ => Bool.false
      | none => Bool.false
  | none => Bool.true

/-- A variable value of a kind the interpolation does not support. -/
def unsupportedKind (v : VariableValue) : Bool :=
  match v.getEvaluator with
  | Evaluator.stringArrayEv _ => Bool.false
  | Evaluator.intArrayEv _ => Bool.false
  | Evaluator.stringEv _ => Bool.false
  | Evaluator.intEv _ => Bool.false
  | _ => Bool.true

/-- The rendering of one piece, stated as the claim words it: a literal
sub-string by identity, a string-array variable joined by commas, an integer
variable in base ten (and the remaining supported kinds as the source renders
them). -/
def renderPiece (replCtx : EvalReplacementContext) (ctx : Context) (piece : String) : String :=
  match isVariableName piece with
  | some varname =>
      match (replCtx.opts.varStore).lookup varname with
      | some value =>
          match value.getEvaluator with
          | Evaluator.stringArrayEv ev => String.intercalate "," (ev.eval ctx)
          | Evaluator.intArrayEv ev => String.intercalate "," ((ev.eval ctx).map toString)
          | Evaluator.stringEv ev => ev.eval ctx
          | Evaluator.intEv ev => toString (ev.eval ctx)
          | _ => ""
      | none => ""
  | none => piece

theorem pieceEvaluator_resolvable (pos : Position) (replCtx : EvalReplacementContext)
    (piece : String) (h : pieceResolvable replCtx piece = Bool.true) :
    ∃ ev : StringEvaluator, pieceEvaluator pos replCtx piece = Except.ok ev ∧
      ∀ ctx : Context, ev.eval ctx = renderPiece replCtx ctx piece := by
  unfold pieceResolvable at h
  unfold pieceEvaluator renderPiece
  cases hv : isVariableName piece with
  | none =>
      simp only [hv] at h ⊢
      exact ⟨_, rfl, fun ctx => rfl⟩
  | some varname =>
      simp only [hv] at h ⊢
      cases hl : (replCtx.opts.varStore).lookup varname with
      | none => simp only [hl] at h; exact Bool.noConfusion h
      | some value =>
          simp only [hl] at h ⊢
          cases hg : value.getEvaluator <;> simp only [hg] at h ⊢ <;> first
            | exact Bool.noConfusion h
            | exact ⟨_, rfl, fun ctx => rfl⟩

theorem pieceEvaluators_resolvable (pos : Position) (replCtx : EvalReplacementContext) :
    ∀ ps : List String, (∀ p ∈ ps, pieceResolvable replCtx p = Bool.true) →
      ∃ evs : List StringEvaluator, pieceEvaluators pos replCtx ps = Except.ok evs ∧
        ∀ ctx : Context,
          evs.map (fun e => e.eval ctx) = ps.map (renderPiece replCtx ctx) := by
  intro ps
  induction ps with
  | nil => exact fun _ => ⟨[], rfl, fun ctx => rfl⟩
  | cons p rest ih =>
      intro h
      obtain ⟨ev, hok, hren⟩ :=
        pieceEvaluator_resolvable pos replCtx p (h p (List.mem_cons_self p rest))
      obtain ⟨evs, hoks, hrens⟩ := ih fun q hq => h q (List.mem_cons_of_mem p hq)
      refine ⟨ev :: evs, ?_, ?_⟩
      · rw [pieceEvaluators, hok, hoks]
        rfl
      · intro ctx
        simp [hren ctx, hrens ctx]

theorem concatPieces_eq_join (evs : List StringEvaluator) (ctx : Context) :
    concatPieces evs ctx = String.join (evs.map fun e => e.eval ctx) := by
  show evs.foldl (fun r e => r ++ e.eval ctx) "" = _
  rw [← List.foldl_map (fun e : StringEvaluator => e.eval ctx) (fun r s => r ++ s)]
  rfl

theorem pieceEvaluator_missing (pos : Position) (replCtx : EvalReplacementContext)
    (piece name : String) (hv : isVariableName piece = some name)
    (hl : (replCtx.opts.varStore).lookup name = none) :
    pieceEvaluator pos replCtx piece
      = Except.error (CompileError.message pos ("variable " ++ name ++ " does not exist")) := by
  unfold pieceEvaluator
  simp only [hv, hl]

theorem pieceEvaluator_unsupported (pos : Position) (replCtx : EvalReplacementContext)
    (piece name : String) (v : VariableValue) (hv : isVariableName piece = some name)
    (hl : (replCtx.opts.varStore).lookup name = some v)
    (hk : unsupportedKind v = Bool.true) :
    pieceEvaluator pos replCtx piece
      = Except.error (CompileError.message pos ("variable type not supported " ++ name)) := by
  unfold unsupportedKind at hk
  unfold pieceEvaluator
  simp only [hv, hl]
  cases hg : v.getEvaluator <;> simp only [hg] at hk ⊢ <;>
    try exact Bool.noConfusion hk

theorem pieceEvaluators_append_error (pos : Position) (replCtx : EvalReplacementContext)
    (e : CompileError) :
    ∀ (pre : List String) (piece : String) (post : List String),
      (∀ p ∈ pre, pieceResolvable replCtx p = Bool.true) →
      pieceEvaluator pos replCtx piece = Except.error e →
      pieceEvaluators pos replCtx (pre ++ piece :: post) = Except.error e := by
  intro pre
  induction pre with
  | nil =>
      intro piece post _ herr
      rw [List.nil_append, pieceEvaluators, herr]
      rfl
  | cons p t ih =>
      intro piece post hres herr
      obtain ⟨ev, hok, _⟩ :=
        pieceEvaluator_resolvable pos replCtx p (hres p (List.mem_cons_self p t))
      rw [List.cons_append, pieceEvaluators, hok,
        ih piece post (fun q hq => hres q (List.mem_cons_of_mem p hq)) herr]
      rfl

/-- Unfolding equation for stringEvaluatorFromVariable. -/
theorem stringEvaluatorFromVariable_eq (s : String) (pos : Position)
    (replCtx : EvalReplacementContext) :
    stringEvaluatorFromVariable s pos replCtx
      = match pieceEvaluators pos replCtx (piecesOf s) with
        | Except.ok evaluators => Except.ok (Evaluator.stringEv { value := "", evalFnc := some (concatPieces evaluators), valueType := ValueType.variableT, field := "", opOverrides := none }, pos)
        | Except.error e => Except.error e := by
  rw [stringEvaluatorFromVariable]
  cases pieceEvaluators pos replCtx (piecesOf s) <;> rfl

/-- C9: an interpolated string literal (one holding at least one variable
pattern) compiles to a string evaluator whose closure concatenates, in source
order, the literal sub-strings unchanged, string-array variables joined by
commas and integer variables rendered in base ten (string and integer-array
variables as the source renders them); a variable pattern whose name is not in
the store fails compilation with the variable-does-not-exist error, and a
variable of an unsupported kind fails with the type-not-supported error (each
reported for the first offending piece). -/
theorem c9_interpolated_string (s : String) (pos : Position)
    (replCtx : EvalReplacementContext) (st : State)
    (hvar : findVarSpans 0 s.toList ≠ []) :
    ((∀ p ∈ piecesOf s, pieceResolvable replCtx p = Bool.true) →
      ∃ f : Context → String,
        primaryToEvaluator (Primary.stringP pos s) replCtx st
          = Except.ok (Evaluator.stringEv { value := "", evalFnc := some f, valueType := ValueType.variableT, field := "", opOverrides := none }, pos, st)
        ∧ ∀ ctx : Context, f ctx = String.join ((piecesOf s).map (renderPiece replCtx ctx)))
    ∧ (∀ (pre : List String) (piece : String) (post : List String) (name : String),
        piecesOf s = pre ++ piece :: post →
        (∀ p ∈ pre, pieceResolvable replCtx p = Bool.true) →
        isVariableName piece = some name →
        (replCtx.opts.varStore).lookup name = none →
        primaryToEvaluator (Primary.stringP pos s) replCtx st
          = Except.error (CompileError.message pos ("variable " ++ name ++ " does not exist")))
    ∧ (∀ (pre : List String) (piece : String) (post : List String) (name : String)
          (v : VariableValue),
        piecesOf s = pre ++ piece :: post →
        (∀ p ∈ pre, pieceResolvable replCtx p = Bool.true) →
        isVariableName piece = some name →
        (replCtx.opts.varStore).lookup name = some v →
        unsupportedKind v = Bool.true →
        primaryToEvaluator (Primary.stringP pos s) replCtx st
          = Except.error (CompileError.message pos ("variable type not supported " ++ name))) := by
  have hcond : (!(findVarSpans 0 s.toList).isEmpty) = Bool.true := by
    cases h : findVarSpans 0 s.toList with
    | nil => exact absurd h hvar
    | cons a t => rfl
  have hprim : primaryToEvaluator (Primary.stringP pos s) replCtx st
      = match pieceEvaluators pos replCtx (piecesOf s) with
        | Except.ok evaluators => Except.ok (Evaluator.stringEv { value := "", evalFnc := some (concatPieces evaluators), valueType := ValueType.variableT, field := "", opOverrides := none }, pos, st)
        | Except.error e => Except.error e := by
    rw [primaryToEvaluator]
    simp only [hcond, if_true, stringEvaluatorFromVariable_eq]
    cases pieceEvaluators pos replCtx (piecesOf s) <;> rfl
  refine ⟨?_, ?_, ?_⟩
  · intro hres
    obtain ⟨evs, hoks, hrens⟩ := pieceEvaluators_resolvable pos replCtx (piecesOf s) hres
    refine ⟨concatPieces evs, ?_, ?_⟩
    · rw [hprim, hoks]
    · intro ctx
      rw [concatPieces_eq_join, hrens ctx]
  · intro pre piece post name hsplit hres hv hl
    have herr := pieceEvaluators_append_error pos replCtx _ pre piece post hres
      (pieceEvaluator_missing pos replCtx piece name hv hl)
    rw [hprim, hsplit, herr]
  · intro pre piece post name v hsplit hres hv hl hk
    have herr := pieceEvaluators_append_error pos replCtx _ pre piece post hres
      (pieceEvaluator_unsupported pos replCtx piece name v hv hl hk)
    rw [hprim, hsplit, herr]

def c9ArrVar : VariableValue := { getEvaluator := Evaluator.stringArrayEv { values := ["a", "b"] } }

def c9IntVar : VariableValue := { getEvaluator := Evaluator.intEv { value := 7 } }

def c9ReplCtx : EvalReplacementContext :=
  { opts := { varStore := [("u", c9ArrVar), ("n", c9IntVar)] } }

def c9Model : Model :=
  { getIterator := fun _ => Except.error "iterator not found",
    getEvaluator := fun _ _ => Except.error "field not found" }

def c9State : State := { model := c9Model }

/-- The literal `user=[dollar-u],id=[dollar-n]` with both variables present. -/
def c9Str : String := "user=$\x7bu\x7d,id=$\x7bn\x7d"

/-- The literal `oops=[dollar-nope]` with an unknown variable. -/
def c9Bad : String := "oops=$\x7bnope\x7d"

theorem c9_interpolated_string_witness :
    (∃ f : Context → String,
      primaryToEvaluator (Primary.stringP 7 c9Str) c9ReplCtx c9State
        = Except.ok (Evaluator.stringEv { value := "", evalFnc := some f, valueType := ValueType.variableT, field := "", opOverrides := none }, 7, c9State)
      ∧ ∀ ctx : Context, f ctx = String.join ((piecesOf c9Str).map (renderPiece c9ReplCtx ctx)))
    ∧ primaryToEvaluator (Primary.stringP 7 c9Bad) c9ReplCtx c9State
        = Except.error (CompileError.message 7 "variable nope does not exist") :=
  ⟨(c9_interpolated_string c9Str 7 c9ReplCtx c9State (by decide)).1 (by decide),
   (c9_interpolated_string c9Bad 7 c9ReplCtx c9State (by decide)).2.1 ["oops="]
     "$\x7bnope\x7d" [] "nope" (by decide) (by decide) rfl rfl⟩

end Secl
